import Mathlib

/-!
# Character device `chrdev.c`: embedding and verification

A shallow embedding of `Chrdev homework/chrdev.c`.  The module keeps its state in
file-scope statics (`is_open`, `is_read`, `data_size`, `data_buffer`); here they are the
fields of `State`, and every entry point is a function from the state before the call
to the state after it together with the returned value.

Machine integers are unbounded `Nat`/`Int` values with the C conversions made explicit:
`size_t` and `unsigned long` are 64 bits wide, `int` is 32 bits wide and signed,
`ssize_t` is 64 bits wide and signed.

The kernel services the module calls (`copy_to_user`, `copy_from_user`, the registration
functions) are not part of the repository.  Their behaviour is modelled from their
documented contract, and the part of the caller's memory that can be accessed is an
explicit argument of each call.

The entry points are `static` and bound to the device through `fops` and `proc_fops`
only, so they are called by the kernel's file layer, which passes a length of at most
`MAX_RW_COUNT`, below `2 ^ 31`.  The contracts of the read and write paths are stated for
such lengths; a few facts about larger lengths show what the function bodies would do with
them.
-/

namespace Chrdev

/-! ## Constants -/

/-- Capacity of `data_buffer` (`#define BUFFER_SIZE 1024`). -/
def BUFFER_SIZE : Nat := 1024

/-- Size of the staging buffer of the report (`#define PROC_BUFFER_SIZE (BUFFER_SIZE + 100)`). -/
def PROC_BUFFER_SIZE : Nat := BUFFER_SIZE + 100

/-- Errno value of "device or resource busy". -/
def EBUSY : Int := 16

/-- Errno value of "bad address". -/
def EFAULT : Int := 14

/-! ## Integer conversions of C -/

/-- Conversion of an unsigned 64-bit value to `int`: the low 32 bits, read as two's complement. -/
def to_int (n : Nat) : Int :=
  if n % 2 ^ 32 < 2 ^ 31 then ((n % 2 ^ 32 : Nat) : Int)
  else ((n % 2 ^ 32 : Nat) : Int) - 2 ^ 32

/-- Conversion of a signed value to `size_t` (`unsigned long`): reduction modulo `2 ^ 64`. -/
def to_size_t (i : Int) : Nat := (i % 2 ^ 64).toNat

/-- Conversion of a `size_t` value to `ssize_t`: the 64 bits read as two's complement. -/
def to_ssize_t (n : Nat) : Int :=
  if n % 2 ^ 64 < 2 ^ 63 then ((n % 2 ^ 64 : Nat) : Int)
  else ((n % 2 ^ 64 : Nat) : Int) - 2 ^ 64

/-- Subtraction in `size_t`. -/
def sub_size_t (a b : Nat) : Nat := (a % 2 ^ 64 + 2 ^ 64 - b % 2 ^ 64) % 2 ^ 64

/-! ## Module state -/

/-- The file-scope variables of the module that the file operations read or write. -/
structure State where
  /-- The flag `static int is_open`. -/
  is_open : Int
  /-- The toggle `static bool is_read`. -/
  is_read : Bool
  /-- The stored length `static int data_size`. -/
  data_size : Int
  /-- The bytes of `static unsigned char data_buffer[BUFFER_SIZE]`. -/
  data_buffer : List Nat
  deriving DecidableEq

/-- State of a module right after it has been loaded: statics are zero-initialised. -/
def State.fresh : State :=
  { is_open := 0, is_read := false, data_size := 0, data_buffer := List.replicate BUFFER_SIZE 0 }

/-- Outcome of a call that hands bytes to the caller: new state, returned value and the
bytes that reached the caller's memory. -/
structure ReadResult where
  /-- State after the call. -/
  state : State
  /-- Value returned by the call. -/
  ret : Int
  /-- Bytes written to the caller's memory, from its first byte on. -/
  out : List Nat
  deriving DecidableEq

/-- Outcome of a call that only returns a status: new state and returned value. -/
structure CallResult where
  /-- State after the call. -/
  state : State
  /-- Value returned by the call. -/
  ret : Int
  deriving DecidableEq

/-! ## Cross-boundary copies -/

/-- Kernel service `copy_from_user(to, from, n)`.  `dst` is the kernel object with `size`
bytes, `src` the bytes that can be read at the caller's pointer.  A request larger than
the destination object is refused whole.  Otherwise bytes are copied until the readable
memory ends, and the part of the request that could not be copied is filled with zero
bytes.  The result is the new content of the object and the number of bytes not copied. -/
def copy_from_user (dst : List Nat) (size : Nat) (src : List Nat) (n : Nat) : List Nat × Nat :=
  if size < n then (dst, n)
  else
    let c := min n src.length
    (src.take c ++ List.replicate (n - c) 0 ++ dst.drop n, n - c)

/-- Kernel service `copy_to_user(to, from, n)`.  `room` is the number of bytes that can be
written at the caller's pointer, `src` the kernel object with `size` bytes.  A request
larger than the source object is refused whole.  Otherwise bytes are copied until the
writable memory ends.  The result is the bytes that reached the caller and the number of
bytes not copied. -/
def copy_to_user (room : Nat) (src : List Nat) (size : Nat) (n : Nat) : List Nat × Nat :=
  if size < n then ([], n)
  else
    let c := min n room
    (src.take c, n - c)

/-! ## Device file operations -/

/-- Entry point `dev_open`. -/
def dev_open (s : State) : CallResult :=
  if s.is_open ≠ 0 then { state := s, ret := -EBUSY }
  else { state := { s with is_open := 1 }, ret := 0 }

/-- Entry point `dev_release`. -/
def dev_release (s : State) : CallResult :=
  { state := { s with is_open := 0 }, ret := 0 }

/-- The number of bytes `dev_read` asks `copy_to_user` for:
`if (len > data_size) len = data_size;` with `data_size` converted to `size_t`. -/
def read_count (s : State) (len : Nat) : Nat :=
  if len > to_size_t s.data_size then to_size_t s.data_size else len

/-- Entry point `dev_read`; `room` is the writable extent of the caller's buffer and
`len` the requested length. -/
def dev_read (s : State) (room : Nat) (len : Nat) : ReadResult :=
  let len := read_count s len
  let r := copy_to_user room s.data_buffer BUFFER_SIZE len
  let ret := to_int r.2
  if ret ≠ 0 then { state := s, ret := -EFAULT, out := r.1 }
  else { state := { s with data_size := 0 }, ret := to_ssize_t len, out := r.1 }

/-- The value `dev_write` leaves in `data_size` before it copies:
`data_size = len; if (data_size > BUFFER_SIZE) data_size = BUFFER_SIZE;`. -/
def write_size (len : Nat) : Int :=
  let data_size := to_int len
  if data_size > (BUFFER_SIZE : Int) then (BUFFER_SIZE : Int) else data_size

/-- Entry point `dev_write`; `buffer` is the readable memory at the caller's pointer and
`len` the requested length. -/
def dev_write (s : State) (buffer : List Nat) (len : Nat) : CallResult :=
  let data_size := write_size len
  let r := copy_from_user s.data_buffer BUFFER_SIZE buffer (to_size_t data_size)
  let ret := to_int r.2
  let s1 : State := { s with data_size := data_size, data_buffer := r.1 }
  if ret ≠ 0 then { state := s1, ret := -EFAULT }
  else { state := s1, ret := data_size }

/-! ## Diagnostic report -/

/-- Byte values of the characters of a string literal. -/
def bytes (t : String) : List Nat := t.toList.map Char.toNat

/-- Conversion `%d` of `sprintf`: decimal digits, with a leading minus sign for a negative
value. -/
def fmt_d (i : Int) : List Nat :=
  match i with
  | Int.ofNat n => (Nat.toDigits 10 n).map Char.toNat
  | Int.negSucc n => 45 :: (Nat.toDigits 10 (n + 1)).map Char.toNat

/-- Conversion `%s` of `sprintf` applied to an array: the bytes before the first zero byte.
Without a zero byte inside the array the read runs past its end, which C leaves undefined. -/
def fmt_s (mem : List Nat) : Option (List Nat) :=
  if 0 ∈ mem then some (mem.takeWhile (fun b => b ≠ 0)) else none

/-- The text of
`sprintf(proc_buffer, "Size of buffer: %d.\nCapasity of buffer: %d.\nBuffer contains:\n%s\n",
data_size, BUFFER_SIZE, data_buffer)`.
The result is undefined when the string conversion is, or when the text and its
terminating zero byte do not fit `proc_buffer`. -/
def sprintf_report (data_size : Int) (data_buffer : List Nat) : Option (List Nat) :=
  match fmt_s data_buffer with
  | none => none
  | some str =>
    let text := bytes "Size of buffer: " ++ fmt_d data_size ++ bytes ".\nCapasity of buffer: "
      ++ fmt_d (BUFFER_SIZE : Int) ++ bytes ".\nBuffer contains:\n" ++ str ++ bytes "\n"
    if text.length + 1 ≤ PROC_BUFFER_SIZE then some text else none

/-- Entry point `proc_read`; `room` is the writable extent of the caller's buffer and
`Count` the requested length.  The result is `none` when the formatting is undefined. -/
def proc_read (s : State) (room : Nat) (Count : Nat) : Option ReadResult :=
  let s1 : State := { s with is_read := !s.is_read }
  if !s1.is_read then some { state := s1, ret := 0, out := [] }
  else
    match sprintf_report s1.data_size s1.data_buffer with
    | none => none
    | some text =>
      let size1 := text.length
      let size1 := if size1 > Count then Count else size1
      let r := copy_to_user room text PROC_BUFFER_SIZE size1
      let size2 := r.2
      some { state := s1, ret := to_ssize_t (sub_size_t size1 size2), out := r.1 }

/-- The report as the specification words it: the stored length in decimal, the capacity
`1024`, and the buffer read as a string (its bytes before the first zero byte), laid out as
`"Size of buffer: <data_size>.\nCapasity of buffer: 1024.\nBuffer contains:\n<buffer>\n"`. -/
def report_text (data_size : Int) (data_buffer : List Nat) : List Nat :=
  bytes ("Size of buffer: " ++ Int.repr data_size ++ ".\nCapasity of buffer: 1024.\n"
    ++ "Buffer contains:\n")
    ++ data_buffer.takeWhile (fun b => b ≠ 0) ++ bytes "\n"

/-! ## Sequences of calls -/

/-- One call of an entry point of the loaded module, with its arguments and the accessible
extent of the caller's memory. -/
inductive Call where
  | dev_open
  | dev_release
  | dev_read (room len : Nat)
  | dev_write (buffer : List Nat) (len : Nat)
  | proc_read (room Count : Nat)
  deriving DecidableEq

/-- State after one call; `none` when the call has no defined behaviour. -/
def step (s : State) : Call → Option State
  | Call.dev_open => some (dev_open s).state
  | Call.dev_release => some (dev_release s).state
  | Call.dev_read room len => some (dev_read s room len).state
  | Call.dev_write buffer len => some (dev_write s buffer len).state
  | Call.proc_read room Count => (proc_read s room Count).map (fun r => r.state)

/-- State after a sequence of calls, earliest first. -/
def run (s : State) : List Call → Option State
  | [] => some s
  | c :: cs =>
    match step s c with
    | none => none
    | some s1 => run s1 cs

/-- Number of `proc_read` calls in a sequence of calls. -/
def proc_read_calls : List Call → Nat
  | [] => 0
  | Call.proc_read _ _ :: cs => proc_read_calls cs + 1
  | _ :: cs => proc_read_calls cs

/-! ## Module load and unload -/

/-- The kernel services called by `chrdev_init` and `chrdev_exit`.  `proc_remove_file` and
`proc_remove_folder` are `proc_remove(proc_file)` and `proc_remove(proc_folder)`. -/
inductive KCall where
  | alloc_chrdev_region
  | cdev_init
  | cdev_add
  | class_create
  | device_create
  | proc_mkdir
  | proc_create
  | proc_remove_file
  | proc_remove_folder
  | device_destroy
  | class_destroy
  | cdev_del
  | unregister_chrdev_region
  deriving DecidableEq

/-- Whether a kernel call releases a resource. -/
def KCall.is_undo : KCall → Bool
  | KCall.proc_remove_file => true
  | KCall.proc_remove_folder => true
  | KCall.device_destroy => true
  | KCall.class_destroy => true
  | KCall.cdev_del => true
  | KCall.unregister_chrdev_region => true
  | _ => false

/-- What the kernel answers to the six setup calls of one module load. -/
structure Setup where
  /-- Value returned by `alloc_chrdev_region`, negative on failure. -/
  alloc_chrdev_region : Int
  /-- Value returned by `cdev_add`, negative on failure. -/
  cdev_add : Int
  /-- Whether the pointer returned by `class_create` is an error pointer. -/
  class_create_is_err : Bool
  /-- Whether the pointer returned by `device_create` is an error pointer. -/
  device_create_is_err : Bool
  /-- Whether `proc_mkdir` returned a null pointer. -/
  proc_mkdir_null : Bool
  /-- Whether `proc_create` returned a null pointer. -/
  proc_create_null : Bool
  deriving DecidableEq

/-- Outcome of `chrdev_init`: new state, returned value and the kernel calls made, in
program order. -/
structure InitResult where
  /-- State after the call. -/
  state : State
  /-- Value returned by the call. -/
  ret : Int
  /-- Kernel calls made, earliest first. -/
  calls : List KCall
  deriving DecidableEq

/-- Calls made from label `cdev_err` on. -/
def cdev_err : List KCall := [KCall.unregister_chrdev_region]

/-- Calls made from label `class_err` on. -/
def class_err : List KCall := KCall.cdev_del :: cdev_err

/-- Calls made from label `device_err` on. -/
def device_err : List KCall := KCall.class_destroy :: class_err

/-- Calls made from label `proc_err` on. -/
def proc_err : List KCall := KCall.proc_remove_file :: KCall.proc_remove_folder :: device_err

/-- Entry point `chrdev_init`.  The test after `device_create` reads `IS_ERR(pclass)`, as
in the source. -/
def chrdev_init (s : State) (k : Setup) : InitResult :=
  let s1 : State := { s with is_open := 0, data_size := 0 }
  let major := k.alloc_chrdev_region
  if major < 0 then
    { state := s1, ret := major, calls := [KCall.alloc_chrdev_region] }
  else if k.cdev_add < 0 then
    { state := s1, ret := -1,
      calls := [KCall.alloc_chrdev_region, KCall.cdev_init, KCall.cdev_add] ++ cdev_err }
  else if k.class_create_is_err then
    { state := s1, ret := -1,
      calls := [KCall.alloc_chrdev_region, KCall.cdev_init, KCall.cdev_add,
        KCall.class_create] ++ class_err }
  else if k.class_create_is_err then
    { state := s1, ret := -1,
      calls := [KCall.alloc_chrdev_region, KCall.cdev_init, KCall.cdev_add,
        KCall.class_create, KCall.device_create] ++ device_err }
  else if k.proc_mkdir_null then
    { state := s1, ret := -1,
      calls := [KCall.alloc_chrdev_region, KCall.cdev_init, KCall.cdev_add,
        KCall.class_create, KCall.device_create, KCall.proc_mkdir] ++ device_err }
  else if k.proc_create_null then
    { state := s1, ret := -1,
      calls := [KCall.alloc_chrdev_region, KCall.cdev_init, KCall.cdev_add,
        KCall.class_create, KCall.device_create, KCall.proc_mkdir, KCall.proc_create]
        ++ proc_err }
  else
    { state := s1, ret := 0,
      calls := [KCall.alloc_chrdev_region, KCall.cdev_init, KCall.cdev_add,
        KCall.class_create, KCall.device_create, KCall.proc_mkdir, KCall.proc_create] }

/-- Entry point `chrdev_exit`: the kernel calls it makes, in program order. -/
def chrdev_exit : List KCall :=
  [KCall.proc_remove_file, KCall.proc_remove_folder, KCall.device_destroy,
    KCall.class_destroy, KCall.cdev_del, KCall.unregister_chrdev_region]

/-- The six setup stages, in the order of the specification. -/
inductive Stage where
  | allocate_device_number
  | init_and_add_cdev
  | create_class
  | create_device_node
  | create_proc_folder
  | create_proc_file
  deriving DecidableEq

/-- The kernel call that undoes a completed stage. -/
def Stage.undo : Stage → KCall
  | Stage.allocate_device_number => KCall.unregister_chrdev_region
  | Stage.init_and_add_cdev => KCall.cdev_del
  | Stage.create_class => KCall.class_destroy
  | Stage.create_device_node => KCall.device_destroy
  | Stage.create_proc_folder => KCall.proc_remove_folder
  | Stage.create_proc_file => KCall.proc_remove_file

/-- Whether a stage fails under the given answers of the kernel. -/
def Stage.fails (k : Setup) : Stage → Bool
  | Stage.allocate_device_number => decide (k.alloc_chrdev_region < 0)
  | Stage.init_and_add_cdev => decide (k.cdev_add < 0)
  | Stage.create_class => k.class_create_is_err
  | Stage.create_device_node => k.device_create_is_err
  | Stage.create_proc_folder => k.proc_mkdir_null
  | Stage.create_proc_file => k.proc_create_null

/-- The stages in setup order. -/
def Stage.all : List Stage :=
  [Stage.allocate_device_number, Stage.init_and_add_cdev, Stage.create_class,
    Stage.create_device_node, Stage.create_proc_folder, Stage.create_proc_file]

/-- The stages completed before the first failing one. -/
def completed_stages (k : Setup) : List Stage :=
  Stage.all.takeWhile (fun st => !st.fails k)

/-- The unwinding the specification asks for: the undo calls of the completed stages, in
reverse order. -/
def expected_undo (k : Setup) : List KCall :=
  (completed_stages k).reverse.map Stage.undo

/-! ## Quantities named by the specification of the report -/

/-- The byte count `min(Count, L)` of a report, `L` being the length of the report text. -/
def report_count (s : State) (Count : Nat) : Nat :=
  min Count (report_text s.data_size s.data_buffer).length

/-- The number of bytes of a report that the copy to the caller leaves uncopied. -/
def report_uncopied (s : State) (room Count : Nat) : Nat :=
  (copy_to_user room (report_text s.data_size s.data_buffer) PROC_BUFFER_SIZE
    (report_count s Count)).2

/-! ## Well-typed states -/

/-- The typing of the statics: `data_buffer` has `BUFFER_SIZE` bytes and `data_size` is a
value of `int`. -/
def State.typed (s : State) : Prop :=
  s.data_buffer.length = BUFFER_SIZE ∧ -2 ^ 31 ≤ s.data_size ∧ s.data_size < 2 ^ 31

/-! ## Sample states -/

/-- A closed device that holds the five bytes `"hello"`. -/
def hello_state : State :=
  { is_open := 0, is_read := false, data_size := 5,
    data_buffer := bytes "hello" ++ List.replicate (BUFFER_SIZE - 5) 0 }

/-- Answers of the kernel under which `device_create` is the only call that fails. -/
def setup_device_create_fails : Setup :=
  { alloc_chrdev_region := 0, cdev_add := 0, class_create_is_err := false,
    device_create_is_err := true, proc_mkdir_null := false, proc_create_null := false }

/-- Answers of the kernel under which `proc_mkdir` is the only call that fails. -/
def setup_proc_mkdir_fails : Setup :=
  { alloc_chrdev_region := 0, cdev_add := 0, class_create_is_err := false,
    device_create_is_err := false, proc_mkdir_null := true, proc_create_null := false }

/-- Answers of the kernel under which `proc_create` is the only call that fails. -/
def setup_proc_create_fails : Setup :=
  { alloc_chrdev_region := 0, cdev_add := 0, class_create_is_err := false,
    device_create_is_err := false, proc_mkdir_null := false, proc_create_null := true }

/-! ## Resources held across kernel calls -/

/-- The stage whose resource a setup call acquires when it succeeds. -/
def KCall.acquires : KCall → Option Stage
  | KCall.alloc_chrdev_region => some Stage.allocate_device_number
  | KCall.cdev_add => some Stage.init_and_add_cdev
  | KCall.class_create => some Stage.create_class
  | KCall.device_create => some Stage.create_device_node
  | KCall.proc_mkdir => some Stage.create_proc_folder
  | KCall.proc_create => some Stage.create_proc_file
  | _ => none

/-- The stage whose resource an undo call releases. -/
def KCall.releases : KCall → Option Stage
  | KCall.unregister_chrdev_region => some Stage.allocate_device_number
  | KCall.cdev_del => some Stage.init_and_add_cdev
  | KCall.class_destroy => some Stage.create_class
  | KCall.device_destroy => some Stage.create_device_node
  | KCall.proc_remove_folder => some Stage.create_proc_folder
  | KCall.proc_remove_file => some Stage.create_proc_file
  | _ => none

/-- The resources held after one kernel call that succeeds, given those held before it:
a setup call adds its resource, an undo call removes its resource. -/
def held_after_call (held : List Stage) (c : KCall) : List Stage :=
  match c.acquires, c.releases with
  | some st, _ => held ++ [st]
  | none, some st => held.erase st
  | none, none => held

/-- The resources held after a sequence of kernel calls that all succeed. -/
def held_after (held : List Stage) (calls : List KCall) : List Stage :=
  calls.foldl held_after_call held

/-- Answers of the kernel under which every setup call succeeds. -/
def setup_all_succeed : Setup :=
  { alloc_chrdev_region := 0, cdev_add := 0, class_create_is_err := false,
    device_create_is_err := false, proc_mkdir_null := false, proc_create_null := false }

/-! ## The characters written into the staging buffer -/

/-- The characters that the `sprintf` call of `proc_read` writes before the terminating zero
byte, for a stored length and for the string that the conversion `%s` yields. -/
def sprintf_text (data_size : Int) (str : List Nat) : List Nat :=
  bytes "Size of buffer: " ++ fmt_d data_size ++ bytes ".\nCapasity of buffer: "
    ++ fmt_d (BUFFER_SIZE : Int) ++ bytes ".\nBuffer contains:\n" ++ str ++ bytes "\n"

/-! ## Requests inside the range of `int` -/

/-- A call whose requested write length is a non-negative value of `int`; the other calls
carry no such condition. -/
def Call.length_in_int : Call → Prop
  | Call.dev_write _ len => len < 2 ^ 31
  | _ => True

/-! ## Lengths that reach the driver -/

/-- Kernel constant `MAX_RW_COUNT` (`INT_MAX & PAGE_MASK` with pages of 4096 bytes).
`dev_read` and `dev_write` are `static` and bound to the device through `fops` only, so
every call comes from `vfs_read` or `vfs_write`, which pass a length of at most this
value. -/
def MAX_RW_COUNT : Nat := 0x7ffff000

/-! ## The statics across any sequence of calls -/

/-- The statics after `proc_read`: its only assignment to them is `is_read = !is_read`
(line 113), made before anything is formatted. -/
def proc_read_statics (s : State) : State := { s with is_read := !s.is_read }

/-- The statics after one call of an entry point. -/
def next (s : State) : Call → State
  | Call.dev_open => (dev_open s).state
  | Call.dev_release => (dev_release s).state
  | Call.dev_read room len => (dev_read s room len).state
  | Call.dev_write buffer len => (dev_write s buffer len).state
  | Call.proc_read _ _ => proc_read_statics s

/-- The statics after a sequence of calls, earliest first. -/
def exec (s : State) : List Call → State
  | [] => s
  | c :: cs => exec (next s c) cs

/-- The state left by the end-to-end example of the specification, a write of 2000 bytes
of `'A'` to a freshly loaded module: the length is 1024 and every byte of the buffer is
`'A'`. -/
def full_state : State :=
  { is_open := 0, is_read := false, data_size := 1024,
    data_buffer := List.replicate BUFFER_SIZE 65 }

/-! ## Conversions inside their exact range -/

/-- Below `2 ^ 31` the conversion to `int` is exact. -/
theorem to_int_of_lt {n : Nat} (h : n < 2 ^ 31) : to_int n = (n : Int) := by
  unfold to_int
  split_ifs with h1 <;> omega

/-- A value of `size_t` survives the way through a signed type and back. -/
theorem to_size_t_natCast {n : Nat} (h : n < 2 ^ 64) : to_size_t (n : Int) = n := by
  unfold to_size_t
  have h1 : ((n : Int) % 2 ^ 64) = ((n % 2 ^ 64 : Nat) : Int) := by norm_cast
  rw [h1, Nat.mod_eq_of_lt h]
  simp

/-- A non-negative value below `2 ^ 64` converts to `size_t` unchanged. -/
theorem to_size_t_of_nonneg {i : Int} (h0 : 0 ≤ i) (h1 : i < 2 ^ 64) :
    to_size_t i = i.toNat := by
  obtain ⟨n, rfl⟩ := Int.eq_ofNat_of_zero_le h0
  have hn : n < 2 ^ 64 := by exact_mod_cast h1
  simp [to_size_t_natCast hn]

/-- A negative `int` converts to a `size_t` value just below `2 ^ 64`. -/
theorem to_size_t_of_neg {i : Int} (h0 : i < 0) (h1 : -2 ^ 31 ≤ i) :
    to_size_t i = 2 ^ 64 - i.natAbs := by
  unfold to_size_t
  omega

/-- Below `2 ^ 63` the conversion to `ssize_t` is exact. -/
theorem to_ssize_t_of_lt {n : Nat} (h : n < 2 ^ 63) : to_ssize_t n = (n : Int) := by
  unfold to_ssize_t
  split_ifs with h1 <;> omega

/-- Subtraction in `size_t` is exact when it does not wrap. -/
theorem sub_size_t_of_le {a b : Nat} (hb : b ≤ a) (ha : a < 2 ^ 64) :
    sub_size_t a b = a - b := by
  unfold sub_size_t
  rw [Nat.mod_eq_of_lt ha, Nat.mod_eq_of_lt (lt_of_le_of_lt hb ha)]
  have h : a + 2 ^ 64 - b = (a - b) + 2 ^ 64 := by omega
  rw [h, Nat.add_mod_right, Nat.mod_eq_of_lt (by omega)]

/-- For a requested length inside `int` the length `dev_write` stores is the clamp. -/
theorem write_size_of_lt {len : Nat} (h : len < 2 ^ 31) :
    write_size len = ((min len BUFFER_SIZE : Nat) : Int) := by
  unfold write_size
  simp only [to_int_of_lt h, BUFFER_SIZE]
  split_ifs with h1
  · have : 1024 < len := by exact_mod_cast h1
    simp [Nat.min_eq_right (le_of_lt this)]
  · have : len ≤ 1024 := by exact_mod_cast (not_lt.mp h1)
    simp [Nat.min_eq_left this]

/-- The length `dev_write` stores never exceeds the capacity. -/
theorem write_size_le (len : Nat) : write_size len ≤ (BUFFER_SIZE : Int) := by
  unfold write_size
  simp only
  split_ifs with h1
  · exact le_refl _
  · exact not_lt.mp h1

/-- Lower end of the range of `int`. -/
theorem to_int_ge (n : Nat) : -2 ^ 31 ≤ to_int n := by
  unfold to_int
  split_ifs with h <;> omega

/-- The length `dev_write` stores is a value of `int`, possibly negative. -/
theorem write_size_ge (len : Nat) : -2 ^ 31 ≤ write_size len := by
  unfold write_size
  simp only
  split_ifs with h1
  · simp [BUFFER_SIZE]
  · exact to_int_ge len

/-! ## Shared facts about `dev_write` and `dev_read` -/

/-- A copy that is not refused and finds enough readable memory is complete. -/
theorem copy_from_user_complete (dst : List Nat) (size : Nat) (src : List Nat) (n : Nat)
    (hsize : n ≤ size) (hsrc : n ≤ src.length) :
    copy_from_user dst size src n = (src.take n ++ dst.drop n, 0) := by
  unfold copy_from_user
  rw [if_neg (by omega)]
  simp [Nat.min_eq_left hsrc]

/-- A copy of more bytes than the destination object holds leaves it as it was. -/
theorem copy_from_user_refused (dst : List Nat) (size : Nat) (src : List Nat) (n : Nat)
    (hsize : size < n) : copy_from_user dst size src n = (dst, n) := by
  unfold copy_from_user
  rw [if_pos hsize]

/-- The copy of `copy_to_user` reports no uncopied byte exactly when the request fits the
source object and the caller's writable memory. -/
theorem copy_to_user_snd_eq_zero (room : Nat) (src : List Nat) (size n : Nat) :
    (copy_to_user room src size n).2 = 0 ↔ n ≤ size ∧ n ≤ room := by
  unfold copy_to_user
  split_ifs with h
  · simp only
    omega
  · simp only
    omega

/-- The uncopied count of `copy_to_user` never exceeds the request. -/
theorem copy_to_user_snd_le (room : Nat) (src : List Nat) (size n : Nat) :
    (copy_to_user room src size n).2 ≤ n := by
  unfold copy_to_user
  split_ifs with h
  · exact le_refl _
  · simp only
    omega

/-- The bytes `copy_to_user` delivers when nothing stays uncopied. -/
theorem copy_to_user_complete (room : Nat) (src : List Nat) (size n : Nat)
    (hsize : n ≤ size) (hroom : n ≤ room) :
    copy_to_user room src size n = (src.take n, 0) := by
  unfold copy_to_user
  rw [if_neg (by omega)]
  simp [Nat.min_eq_left hroom]

/-- With a non-negative stored length the clamp of `dev_read` is the minimum. -/
theorem read_count_of_nonneg (s : State) (len : Nat) (h0 : 0 ≤ s.data_size)
    (h1 : s.data_size < 2 ^ 31) : read_count s len = min len s.data_size.toNat := by
  unfold read_count
  rw [to_size_t_of_nonneg h0 (by omega)]
  split_ifs with h
  · exact (Nat.min_eq_right (le_of_lt h)).symm
  · exact (Nat.min_eq_left (not_lt.mp h)).symm

/-- What `dev_write` does whenever the clamped length is non-negative and the caller's
memory holds that many readable bytes. -/
theorem dev_write_of_copied (s : State) (buffer : List Nat) (len : Nat)
    (h0 : 0 ≤ write_size len) (hsrc : (write_size len).toNat ≤ buffer.length) :
    dev_write s buffer len =
      { state := { s with data_size := write_size len,
                          data_buffer := buffer.take (write_size len).toNat ++
                            s.data_buffer.drop (write_size len).toNat },
        ret := write_size len } := by
  have hle := write_size_le len
  have hsz : to_size_t (write_size len) = (write_size len).toNat :=
    to_size_t_of_nonneg h0 (by simp only [BUFFER_SIZE] at hle; omega)
  have hn : (write_size len).toNat ≤ BUFFER_SIZE := by
    simp only [BUFFER_SIZE] at hle ⊢
    omega
  unfold dev_write
  simp only [hsz, copy_from_user_complete _ _ _ _ hn hsrc]
  have hz : to_int 0 = 0 := by decide
  simp [hz]

/-- What `dev_read` does in a state with a non-negative stored length when the copy to the
caller is complete. -/
theorem dev_read_of_copied (s : State) (room len : Nat)
    (h0 : 0 ≤ s.data_size) (h1 : s.data_size < 2 ^ 31)
    (hcopy : (copy_to_user room s.data_buffer BUFFER_SIZE (read_count s len)).2 = 0) :
    dev_read s room len =
      { state := { s with data_size := 0 },
        ret := ((min len s.data_size.toNat : Nat) : Int),
        out := s.data_buffer.take (min len s.data_size.toNat) } := by
  have hrc := read_count_of_nonneg s len h0 h1
  rw [hrc] at hcopy
  obtain ⟨hsize, hroom⟩ := (copy_to_user_snd_eq_zero _ _ _ _).mp hcopy
  unfold dev_read
  simp only [hrc, copy_to_user_complete _ _ _ _ hsize hroom]
  have hz : to_int 0 = 0 := by decide
  have hlt : min len s.data_size.toNat < 2 ^ 63 := by
    have : min len s.data_size.toNat ≤ s.data_size.toNat := Nat.min_le_right _ _
    omega
  simp [hz, to_ssize_t_of_lt hlt]

/-! ## Write path -/

/-- Inside the range of `int` the write path does what its contract says: for `len < 2 ^ 31`
and a caller buffer with `min len 1024` readable bytes, `dev_write` returns `min len 1024`,
stores that length and puts the first `min len 1024` bytes of the data at offset 0. -/
theorem dev_write_in_range (s : State) (buffer : List Nat) (len : Nat)
    (hlen : len < 2 ^ 31) (hsrc : min len BUFFER_SIZE ≤ buffer.length) :
    dev_write s buffer len =
      { state := { s with data_size := ((min len BUFFER_SIZE : Nat) : Int),
                          data_buffer := buffer.take (min len BUFFER_SIZE) ++
                            s.data_buffer.drop (min len BUFFER_SIZE) },
        ret := ((min len BUFFER_SIZE : Nat) : Int) } := by
  have hw := write_size_of_lt hlen
  have ht : (write_size len).toNat = min len BUFFER_SIZE := by
    rw [hw]
    exact Int.toNat_natCast _
  have h := dev_write_of_copied s buffer len (by rw [hw]; exact Int.natCast_nonneg _)
    (by rw [ht]; exact hsrc)
  rw [h, ht, hw]

/-- Beyond the lengths that reach the driver: for a length of `2 ^ 32 + 5 = 4294967301`,
above `MAX_RW_COUNT`, the function body narrows the length to `int` before it compares it
with the capacity, so it would copy 5 bytes, return 5 and store the length 5. -/
theorem dev_write_length_wraps :
    (copy_from_user State.fresh.data_buffer BUFFER_SIZE (List.replicate (2 ^ 32 + 5) 65)
        (to_size_t (write_size (2 ^ 32 + 5)))).2 = 0 ∧
    (dev_write State.fresh (List.replicate (2 ^ 32 + 5) 65) (2 ^ 32 + 5)).ret = 5 ∧
    (dev_write State.fresh (List.replicate (2 ^ 32 + 5) 65) (2 ^ 32 + 5)).state.data_size = 5 ∧
    min (2 ^ 32 + 5) BUFFER_SIZE = 1024 := by
  have hw : write_size (2 ^ 32 + 5) = 5 := by decide
  have hs : to_size_t 5 = 5 := by decide
  have hsrc : (5 : Nat) ≤ (List.replicate (2 ^ 32 + 5) 65).length := by
    rw [List.length_replicate]
    omega
  have h := dev_write_of_copied State.fresh (List.replicate (2 ^ 32 + 5) 65) (2 ^ 32 + 5)
    (by rw [hw]; decide) (by rw [hw]; exact hsrc)
  refine ⟨?_, ?_, ?_, by decide⟩
  · rw [hw, hs, copy_from_user_complete _ _ _ _ (by decide) hsrc]
  · exact (congrArg CallResult.ret h).trans hw
  · exact (congrArg (fun r => r.state.data_size) h).trans hw

/-- C4 (counterexample): the length `2 ^ 32 = 4294967296` is a value of `size_t` greater
than the capacity.  For it the conversion to `int` gives 0: the copy the function asks for
succeeds, the call returns 0, the stored length is 0 and not 1024, and no byte of the input
reaches `data_buffer`.  The statement over all of `size_t` therefore fails on the function
body; such a length is above `MAX_RW_COUNT` and is never passed to the driver. -/
theorem dev_write_over_capacity_wraps :
    BUFFER_SIZE < 2 ^ 32 ∧
    (copy_from_user State.fresh.data_buffer BUFFER_SIZE (List.replicate (2 ^ 32) 65)
        (to_size_t (write_size (2 ^ 32)))).2 = 0 ∧
    (dev_write State.fresh (List.replicate (2 ^ 32) 65) (2 ^ 32)).ret = 0 ∧
    (dev_write State.fresh (List.replicate (2 ^ 32) 65) (2 ^ 32)).state.data_size = 0 ∧
    (dev_write State.fresh (List.replicate (2 ^ 32) 65) (2 ^ 32)).state.data_buffer =
      List.replicate BUFFER_SIZE 0 := by
  have hw : write_size (2 ^ 32) = 0 := by decide
  have hs : to_size_t 0 = 0 := by decide
  have h := dev_write_of_copied State.fresh (List.replicate (2 ^ 32) 65) (2 ^ 32)
    (by rw [hw]) (by rw [hw]; exact Nat.zero_le _)
  refine ⟨by decide, ?_, ?_, ?_, ?_⟩
  · rw [hw, hs, copy_from_user_complete _ _ _ _ (Nat.zero_le _) (Nat.zero_le _)]
  · exact (congrArg CallResult.ret h).trans hw
  · exact (congrArg (fun r => r.state.data_size) h).trans hw
  · refine (congrArg (fun r => r.state.data_buffer) h).trans ?_
    simp only [hw, Int.toNat_zero, List.take_zero, List.drop_zero, List.nil_append]
    rfl

/-- Inside the range of `int` a write of more than the capacity keeps exactly the first
1024 bytes: for `1024 < len < 2 ^ 31` and a caller buffer with 1024 readable bytes the stored
length is 1024 and `data_buffer` is the first 1024 bytes of the input. -/
theorem dev_write_over_capacity_in_range (s : State) (buffer : List Nat) (len : Nat)
    (hbuf : s.data_buffer.length = BUFFER_SIZE) (hover : BUFFER_SIZE < len)
    (hlen : len < 2 ^ 31) (hsrc : BUFFER_SIZE ≤ buffer.length) :
    (dev_write s buffer len).state.data_size = (BUFFER_SIZE : Int) ∧
    (dev_write s buffer len).state.data_buffer = buffer.take BUFFER_SIZE := by
  have hmin : min len BUFFER_SIZE = BUFFER_SIZE := Nat.min_eq_right (le_of_lt hover)
  rw [dev_write_in_range s buffer len hlen (by rw [hmin]; exact hsrc), hmin]
  refine ⟨rfl, ?_⟩
  simp [List.drop_eq_nil_of_le (le_of_eq hbuf)]

set_option maxRecDepth 100000 in
/-- C7 (code defect, evaluated at the failing input): after `"hello"` has been stored, a
write request of 3 bytes from a pointer at which a single byte `'x'` is readable.  The copy
reports 2 uncopied bytes and the call returns `-EFAULT`, yet the stored length has gone
from 5 to 3 and the stored bytes from `"hello"` to `'x', 0, 0, 'l', 'o'`: the length is
assigned before the copy, and the copy pads what it could not read. -/
theorem dev_write_fault_changes_store :
    (dev_write State.fresh (bytes "hello") 5).state.data_size = 5 ∧
    (dev_write State.fresh (bytes "hello") 5).state.data_buffer.take 5 = bytes "hello" ∧
    (copy_from_user (dev_write State.fresh (bytes "hello") 5).state.data_buffer BUFFER_SIZE
        [120] (to_size_t (write_size 3))).2 = 2 ∧
    (dev_write (dev_write State.fresh (bytes "hello") 5).state [120] 3).ret = -EFAULT ∧
    (dev_write (dev_write State.fresh (bytes "hello") 5).state [120] 3).state.data_size = 3 ∧
    (dev_write (dev_write State.fresh (bytes "hello") 5).state [120] 3).state.data_buffer.take 5
      = [120, 0, 0, 108, 111] := by
  decide

/-! ## Read path -/

set_option maxRecDepth 100000 in
/-- Beyond the lengths that reach the driver: a write of length `2 ^ 32 - 1 = 4294967295`,
above `MAX_RW_COUNT`, would be refused by the copy and leave `data_size = -1`, and in that
state a read of length 5 would return 5 bytes.  This is why the contract of `dev_read` is
stated for a non-negative stored length. -/
theorem dev_read_negative_length :
    (dev_write State.fresh (bytes "hello") 4294967295).ret = -EFAULT ∧
    (dev_write State.fresh (bytes "hello") 4294967295).state.data_size = -1 ∧
    (copy_to_user 5 (dev_write State.fresh (bytes "hello") 4294967295).state.data_buffer
        BUFFER_SIZE (read_count (dev_write State.fresh (bytes "hello") 4294967295).state 5)).2
      = 0 ∧
    (dev_read (dev_write State.fresh (bytes "hello") 4294967295).state 5 5).ret = 5 ∧
    (dev_read (dev_write State.fresh (bytes "hello") 4294967295).state 5 5).out.length = 5 ∧
    (dev_read (dev_write State.fresh (bytes "hello") 4294967295).state 5 5).ret ≠
      min 5 (dev_write State.fresh (bytes "hello") 4294967295).state.data_size := by
  decide

/-- C2: for every device state (a buffer of `BUFFER_SIZE` bytes and a stored length that is
a non-negative `int`, as in every state the module reaches) and every read request whose
copy to the caller is complete, `dev_read` returns `min len data_size`, delivers exactly
the first `min len data_size` bytes of `data_buffer`, and leaves `data_size` equal to 0 and
the rest of the state as it was. -/
theorem dev_read_success (s : State) (room len : Nat)
    (hbuf : s.data_buffer.length = BUFFER_SIZE)
    (h0 : 0 ≤ s.data_size) (h1 : s.data_size < 2 ^ 31)
    (hcopy : (copy_to_user room s.data_buffer BUFFER_SIZE (read_count s len)).2 = 0) :
    (dev_read s room len).ret = min (len : Int) s.data_size ∧
    (dev_read s room len).out = s.data_buffer.take (min len s.data_size.toNat) ∧
    (dev_read s room len).out.length = min len s.data_size.toNat ∧
    (dev_read s room len).state = { s with data_size := 0 } := by
  have hsize : min len s.data_size.toNat ≤ BUFFER_SIZE := by
    have h := hcopy
    rw [read_count_of_nonneg s len h0 h1] at h
    exact ((copy_to_user_snd_eq_zero _ _ _ _).mp h).1
  rw [dev_read_of_copied s room len h0 h1 hcopy]
  refine ⟨?_, rfl, ?_, rfl⟩
  · show ((min len s.data_size.toNat : Nat) : Int) = min (len : Int) s.data_size
    omega
  · show (s.data_buffer.take (min len s.data_size.toNat)).length = _
    rw [List.length_take, hbuf]
    omega

/-- C6: for every device state (a stored length that is a non-negative `int`, as in every
state the module reaches) and every read request whose copy to the caller leaves bytes
uncopied, `dev_read` returns `-EFAULT` and leaves the whole state, `data_size` and
`data_buffer` included, as it was. -/
theorem dev_read_fault (s : State) (room len : Nat)
    (h0 : 0 ≤ s.data_size) (h1 : s.data_size < 2 ^ 31)
    (hcopy : (copy_to_user room s.data_buffer BUFFER_SIZE (read_count s len)).2 ≠ 0) :
    (dev_read s room len).ret = -EFAULT ∧ (dev_read s room len).state = s := by
  have hle := copy_to_user_snd_le room s.data_buffer BUFFER_SIZE (read_count s len)
  have hrc := read_count_of_nonneg s len h0 h1
  have hlt : (copy_to_user room s.data_buffer BUFFER_SIZE (read_count s len)).2 < 2 ^ 31 := by
    have : min len s.data_size.toNat ≤ s.data_size.toNat := Nat.min_le_right _ _
    omega
  have hret : to_int (copy_to_user room s.data_buffer BUFFER_SIZE (read_count s len)).2 ≠ 0 := by
    rw [to_int_of_lt hlt]
    exact_mod_cast hcopy
  unfold dev_read
  simp only [if_pos hret, and_self]

set_option maxRecDepth 100000 in
/-- Beyond the lengths that reach the driver: in the state with `data_size = -1` that a
write of length `2 ^ 32 - 1` would leave, a read of length `2 ^ 32 = 4294967296` would be
refused by the copy with all `2 ^ 32` bytes uncopied; narrowed to `int` that count is 0, so
the function body would return 4294967296 and reset `data_size`.  Both lengths are above
`MAX_RW_COUNT`. -/
theorem dev_read_fault_missed :
    (dev_write State.fresh (bytes "hello") 4294967295).state.data_size = -1 ∧
    (copy_to_user 0 (dev_write State.fresh (bytes "hello") 4294967295).state.data_buffer
        BUFFER_SIZE
        (read_count (dev_write State.fresh (bytes "hello") 4294967295).state 4294967296)).2
      = 4294967296 ∧
    (dev_read (dev_write State.fresh (bytes "hello") 4294967295).state 0 4294967296).ret
      = 4294967296 ∧
    (dev_read (dev_write State.fresh (bytes "hello") 4294967295).state 0 4294967296).ret
      ≠ -EFAULT ∧
    (dev_read (dev_write State.fresh (bytes "hello") 4294967295).state 0
      4294967296).state.data_size = 0 := by
  decide

set_option maxRecDepth 100000 in
/-- Instance of `dev_read_success`: with `"hello"` stored, a read request of length 10 into
10 writable bytes returns 5, delivers `"hello"` and leaves the length 0. -/
theorem dev_read_success_witness :
    (hello_state.data_buffer.length = BUFFER_SIZE ∧ 0 ≤ hello_state.data_size ∧
      hello_state.data_size < 2 ^ 31 ∧
      (copy_to_user 10 hello_state.data_buffer BUFFER_SIZE (read_count hello_state 10)).2 = 0)
    ∧ ((dev_read hello_state 10 10).ret = min ((10 : Nat) : Int) hello_state.data_size ∧
      (dev_read hello_state 10 10).out
        = hello_state.data_buffer.take (min 10 hello_state.data_size.toNat) ∧
      (dev_read hello_state 10 10).out.length = min 10 hello_state.data_size.toNat ∧
      (dev_read hello_state 10 10).state = { hello_state with data_size := 0 }) :=
  ⟨by decide, dev_read_success hello_state 10 10 (by decide) (by decide) (by decide)
    (by decide)⟩

set_option maxRecDepth 100000 in
/-- Instance of `dev_read_fault`: with `"hello"` stored, a read request of length 5 into 2
writable bytes returns `-EFAULT` and leaves the state as it was. -/
theorem dev_read_fault_witness :
    (0 ≤ hello_state.data_size ∧ hello_state.data_size < 2 ^ 31 ∧
      (copy_to_user 2 hello_state.data_buffer BUFFER_SIZE (read_count hello_state 5)).2 ≠ 0)
    ∧ ((dev_read hello_state 2 5).ret = -EFAULT ∧
      (dev_read hello_state 2 5).state = hello_state) :=
  ⟨by decide, dev_read_fault hello_state 2 5 (by decide) (by decide) (by decide)⟩

/-! ## Round trip -/

/-- A complete write followed by a read: the read returns the stored prefix of the data
and empties the store. -/
theorem dev_read_after_write (s : State) (d : List Nat) (len room r : Nat)
    (h0 : 0 ≤ write_size len) (hsrc : (write_size len).toNat ≤ d.length)
    (hroom : min r (write_size len).toNat ≤ room) :
    dev_read (dev_write s d len).state room r =
      { state := { (dev_write s d len).state with data_size := 0 },
        ret := ((min r (write_size len).toNat : Nat) : Int),
        out := d.take (min r (write_size len).toNat) } := by
  have hle := write_size_le len
  have hst := congrArg CallResult.state (dev_write_of_copied s d len h0 hsrc)
  have hds : (dev_write s d len).state.data_size = write_size len := by rw [hst]
  have hbuf : (dev_write s d len).state.data_buffer =
      d.take (write_size len).toNat ++ s.data_buffer.drop (write_size len).toNat := by rw [hst]
  have h1 : (dev_write s d len).state.data_size < 2 ^ 31 := by
    rw [hds]
    simp only [BUFFER_SIZE] at hle
    omega
  have hn : (write_size len).toNat ≤ BUFFER_SIZE := by
    simp only [BUFFER_SIZE] at hle ⊢
    omega
  have hcopy : (copy_to_user room (dev_write s d len).state.data_buffer BUFFER_SIZE
      (read_count (dev_write s d len).state r)).2 = 0 := by
    rw [copy_to_user_snd_eq_zero, read_count_of_nonneg _ _ (by rw [hds]; exact h0) h1, hds]
    exact ⟨le_trans (Nat.min_le_right _ _) hn, hroom⟩
  have htake : (dev_write s d len).state.data_buffer.take (min r (write_size len).toNat) =
      d.take (min r (write_size len).toNat) := by
    rw [hbuf, List.take_append_of_le_length (by
      rw [List.length_take, Nat.min_eq_left hsrc]
      exact Nat.min_le_right _ _), List.take_take]
    congr 1
    omega
  rw [dev_read_of_copied _ room r (by rw [hds]; exact h0) h1 hcopy, hds, htake]

/-- A read right after a successful read returns 0 bytes, whatever is asked for. -/
theorem dev_read_after_read (s : State) (room len : Nat) :
    dev_read { s with data_size := 0 } room len =
      { state := { s with data_size := 0 }, ret := 0, out := [] } := by
  have hcopy : (copy_to_user room s.data_buffer BUFFER_SIZE
      (read_count { s with data_size := 0 } len)).2 = 0 := by
    rw [copy_to_user_snd_eq_zero,
      read_count_of_nonneg { s with data_size := 0 } len (le_refl _) (by norm_num)]
    simp
  have h := dev_read_of_copied { s with data_size := 0 } room len (le_refl _) (by norm_num)
    hcopy
  rw [h]
  simp

/-- Inside the range of `int` the round trip holds: for a byte sequence `d` shorter than
`2 ^ 31` bytes, `dev_write (d, |d|)` followed by `dev_read r` into enough writable memory
returns `min r (min |d| 1024)` bytes, the first bytes of `d`, and the next read returns 0
bytes. -/
theorem round_trip_in_range (s : State) (d : List Nat) (room r room2 r2 : Nat)
    (hlen : d.length < 2 ^ 31) (hroom : min r (min d.length BUFFER_SIZE) ≤ room) :
    (dev_read (dev_write s d d.length).state room r).ret
      = ((min r (min d.length BUFFER_SIZE) : Nat) : Int) ∧
    (dev_read (dev_write s d d.length).state room r).out
      = d.take (min r (min d.length BUFFER_SIZE)) ∧
    (dev_read (dev_read (dev_write s d d.length).state room r).state room2 r2).ret = 0 ∧
    (dev_read (dev_read (dev_write s d d.length).state room r).state room2 r2).out = [] := by
  have hw := write_size_of_lt hlen
  have ht : (write_size d.length).toNat = min d.length BUFFER_SIZE := by
    rw [hw]
    exact Int.toNat_natCast _
  have h := dev_read_after_write s d d.length room r (by rw [hw]; exact Int.natCast_nonneg _)
    (by rw [ht]; exact Nat.min_le_left _ _) (by rw [ht]; exact hroom)
  rw [ht] at h
  rw [h]
  refine ⟨rfl, rfl, ?_, ?_⟩
  · exact congrArg ReadResult.ret (dev_read_after_read _ room2 r2)
  · exact congrArg ReadResult.out (dev_read_after_read _ room2 r2)

/-- Beyond the lengths that reach the driver: for `2 ^ 32 + 3 = 4294967299` bytes of `'A'`,
a length above `MAX_RW_COUNT`, the function body of `dev_write` would store 3 bytes and a
following read of length 10 would return those 3 bytes. -/
theorem round_trip_length_wraps :
    (List.replicate (2 ^ 32 + 3) 65).length = 2 ^ 32 + 3 ∧
    (copy_from_user State.fresh.data_buffer BUFFER_SIZE (List.replicate (2 ^ 32 + 3) 65)
        (to_size_t (write_size (2 ^ 32 + 3)))).2 = 0 ∧
    (dev_write State.fresh (List.replicate (2 ^ 32 + 3) 65) (2 ^ 32 + 3)).ret = 3 ∧
    (dev_read (dev_write State.fresh (List.replicate (2 ^ 32 + 3) 65) (2 ^ 32 + 3)).state
      10 10).ret = 3 ∧
    (dev_read (dev_write State.fresh (List.replicate (2 ^ 32 + 3) 65) (2 ^ 32 + 3)).state
      10 10).out = [65, 65, 65] ∧
    min 10 (min (2 ^ 32 + 3) BUFFER_SIZE) = 10 := by
  have hw : write_size (2 ^ 32 + 3) = 3 := by decide
  have ht : (write_size (2 ^ 32 + 3)).toNat = 3 := by rw [hw]; rfl
  have hs : to_size_t 3 = 3 := by decide
  have hsrc : (3 : Nat) ≤ (List.replicate (2 ^ 32 + 3) 65).length := by
    rw [List.length_replicate]
    omega
  have h := dev_write_of_copied State.fresh (List.replicate (2 ^ 32 + 3) 65) (2 ^ 32 + 3)
    (by rw [hw]; decide) (by rw [ht]; exact hsrc)
  have hr := dev_read_after_write State.fresh (List.replicate (2 ^ 32 + 3) 65) (2 ^ 32 + 3)
    10 10 (by rw [hw]; decide) (by rw [ht]; exact hsrc) (by rw [ht]; decide)
  refine ⟨List.length_replicate _ _, ?_, ?_, ?_, ?_, by decide⟩
  · rw [hw, hs, copy_from_user_complete _ _ _ _ (by decide) hsrc]
  · exact (congrArg CallResult.ret h).trans hw
  · refine (congrArg ReadResult.ret hr).trans ?_
    simp only [ht]
    rfl
  · refine (congrArg ReadResult.out hr).trans ?_
    simp only [ht]
    have h3 : min 10 3 = 3 := by decide
    rw [h3, List.take_replicate]
    rfl

/-! ## Open and release -/

/-- C5: `dev_open` returns `-EBUSY` and leaves the open flag set exactly when `is_open` is
already set, in which case the state is untouched; otherwise it sets `is_open` to 1 and
returns 0.  `dev_release` always returns 0 and clears `is_open`.  Hence from a closed device
the first open returns 0, a second open returns `-EBUSY`, and after a release the next open
returns 0 again. -/
theorem dev_open_release_state_machine (s : State) :
    (((dev_open s).ret = -EBUSY ∧ (dev_open s).state.is_open ≠ 0) ↔ s.is_open ≠ 0) ∧
    (s.is_open ≠ 0 → dev_open s = { state := s, ret := -EBUSY }) ∧
    (s.is_open = 0 → dev_open s = { state := { s with is_open := 1 }, ret := 0 }) ∧
    dev_release s = { state := { s with is_open := 0 }, ret := 0 } ∧
    (s.is_open = 0 →
      (dev_open s).ret = 0 ∧
      (dev_open (dev_open s).state).ret = -EBUSY ∧
      (dev_open (dev_open s).state).state = (dev_open s).state ∧
      (dev_release (dev_open (dev_open s).state).state).ret = 0 ∧
      (dev_open (dev_release (dev_open (dev_open s).state).state).state).ret = 0) := by
  refine ⟨?_, ?_, ?_, rfl, ?_⟩
  · by_cases h : s.is_open = 0
    · simp [dev_open, h, EBUSY]
    · simp [dev_open, h]
  · intro h
    simp [dev_open, h]
  · intro h
    simp [dev_open, h]
  · intro h
    simp [dev_open, dev_release, h, EBUSY]

/-- Instance of `dev_open_release_state_machine` on a freshly loaded module: open returns 0,
the second open returns `-EBUSY`, and after a release open returns 0 again. -/
theorem dev_open_release_witness :
    State.fresh.is_open = 0 ∧
    ((dev_open State.fresh).ret = 0 ∧
      (dev_open (dev_open State.fresh).state).ret = -EBUSY ∧
      (dev_open (dev_open State.fresh).state).state = (dev_open State.fresh).state ∧
      (dev_release (dev_open (dev_open State.fresh).state).state).ret = 0 ∧
      (dev_open (dev_release (dev_open (dev_open State.fresh).state).state).state).ret = 0) :=
  ⟨rfl, (dev_open_release_state_machine State.fresh).2.2.2.2 rfl⟩

/-! ## The diagnostic report -/

/-- The bytes of a concatenation of strings. -/
theorem bytes_append (a b : String) : bytes (a ++ b) = bytes a ++ bytes b := by
  simp [bytes, String.toList]

/-- The conversion `%d` writes the decimal representation of the integer. -/
theorem fmt_d_eq_repr (i : Int) : fmt_d i = bytes (Int.repr i) := by
  cases i with
  | ofNat n => simp [fmt_d, bytes, Int.repr, Nat.repr, String.toList, List.asString]
  | negSucc n =>
    simp [fmt_d, bytes, Int.repr, Nat.repr, String.toList, List.asString]

/-- An `int` printed with `%d` takes at most 11 characters. -/
theorem fmt_d_length_le (i : Int) (h0 : -2 ^ 31 ≤ i) (h1 : i < 2 ^ 31) :
    (fmt_d i).length ≤ 11 := by
  cases i with
  | ofNat n =>
    have hn : n < 10 ^ 10 := by
      have : (n : Int) < 2 ^ 31 := h1
      omega
    have := Nat.toDigitsCore_length 10 (by decide) (n + 1) n 10 hn (by decide)
    simp only [fmt_d, List.length_map, Nat.toDigits]
    omega
  | negSucc n =>
    have hn : n + 1 < 10 ^ 10 := by
      have h2 : -2 ^ 31 ≤ Int.negSucc n := h0
      rw [Int.negSucc_eq] at h2
      omega
    have := Nat.toDigitsCore_length 10 (by decide) (n + 1 + 1) (n + 1) 10 hn (by decide)
    simp only [fmt_d, List.length_cons, List.length_map, Nat.toDigits]
    omega

/-- A string that ends inside an array is shorter than the array. -/
theorem takeWhile_length_lt (l : List Nat) (h : 0 ∈ l) :
    (l.takeWhile (fun b => b ≠ 0)).length < l.length := by
  induction l with
  | nil => simp at h
  | cons a t ih =>
    by_cases ha : a = 0
    · simp [List.takeWhile, ha]
    · have ht : 0 ∈ t := by
        rcases List.mem_cons.mp h with h | h
        · exact absurd h.symm ha
        · exact h
      simpa [List.takeWhile, ha] using ih ht

/-- The conversion `%s` is defined on an array that holds a zero byte. -/
theorem fmt_s_of_mem (mem : List Nat) (h : 0 ∈ mem) :
    fmt_s mem = some (mem.takeWhile (fun b => b ≠ 0)) := by
  simp [fmt_s, h]

/-- The report as the specification words it, split at the conversions of the format. -/
theorem report_text_eq (data_size : Int) (data_buffer : List Nat) :
    report_text data_size data_buffer =
      bytes "Size of buffer: " ++ fmt_d data_size ++ bytes ".\nCapasity of buffer: "
      ++ fmt_d (BUFFER_SIZE : Int) ++ bytes ".\nBuffer contains:\n"
      ++ data_buffer.takeWhile (fun b => b ≠ 0) ++ bytes "\n" := by
  have hcap : fmt_d (BUFFER_SIZE : Int) = bytes "1024" := by decide
  have hmid : bytes ".\nCapasity of buffer: 1024.\n" ++ bytes "Buffer contains:\n" =
      bytes ".\nCapasity of buffer: " ++ bytes "1024" ++ bytes ".\nBuffer contains:\n" := by
    decide
  unfold report_text
  rw [bytes_append, bytes_append, bytes_append, hcap, fmt_d_eq_repr]
  simp only [List.append_assoc]
  rw [← List.append_assoc (bytes ".\nCapasity of buffer: 1024.\n"), hmid]
  simp only [List.append_assoc]

/-- Length of the report: 62 fixed characters, the stored length and the string. -/
theorem report_text_length (data_size : Int) (data_buffer : List Nat) :
    (report_text data_size data_buffer).length =
      62 + (fmt_d data_size).length + (data_buffer.takeWhile (fun b => b ≠ 0)).length := by
  rw [report_text_eq]
  have hcap : fmt_d (BUFFER_SIZE : Int) = bytes "1024" := by decide
  have h1 : (bytes "Size of buffer: ").length = 16 := by decide
  have h2 : (bytes ".\nCapasity of buffer: ").length = 22 := by decide
  have h3 : (bytes "1024").length = 4 := by decide
  have h4 : (bytes ".\nBuffer contains:\n").length = 19 := by decide
  have h5 : (bytes "\n").length = 1 := by decide
  simp only [List.length_append, hcap, h1, h2, h3, h4, h5]
  omega

/-- For well-typed statics with a zero byte in the buffer, `sprintf` fits `proc_buffer` and
writes the report that the specification words. -/
theorem sprintf_report_eq (data_size : Int) (data_buffer : List Nat)
    (hz : 0 ∈ data_buffer) (hlen : data_buffer.length ≤ BUFFER_SIZE)
    (h0 : -2 ^ 31 ≤ data_size) (h1 : data_size < 2 ^ 31) :
    sprintf_report data_size data_buffer = some (report_text data_size data_buffer) := by
  have hL := report_text_length data_size data_buffer
  have hd := fmt_d_length_le data_size h0 h1
  have ht := takeWhile_length_lt data_buffer hz
  have hfit : (report_text data_size data_buffer).length + 1 ≤ PROC_BUFFER_SIZE := by
    simp only [PROC_BUFFER_SIZE, BUFFER_SIZE] at hlen ⊢
    omega
  rw [report_text_eq] at hfit
  unfold sprintf_report
  rw [fmt_s_of_mem _ hz]
  simp only [if_pos hfit, report_text_eq]

/-- A `proc_read` call that finds the toggle set clears it, returns 0 and delivers nothing. -/
theorem proc_read_off (s : State) (room Count : Nat) (h : s.is_read = true) :
    proc_read s room Count =
      some { state := { s with is_read := false }, ret := 0, out := [] } := by
  simp [proc_read, h]

/-- A `proc_read` call that finds the toggle clear sets it and delivers the leading bytes of
the report, as many as the request and the caller's writable memory allow. -/
theorem proc_read_on (s : State) (room Count : Nat) (h : s.is_read = false)
    (hz : 0 ∈ s.data_buffer) (hlen : s.data_buffer.length ≤ BUFFER_SIZE)
    (h0 : -2 ^ 31 ≤ s.data_size) (h1 : s.data_size < 2 ^ 31) :
    proc_read s room Count =
      some { state := { s with is_read := true },
             ret := ((min (min Count (report_text s.data_size s.data_buffer).length) room
               : Nat) : Int),
             out := (report_text s.data_size s.data_buffer).take
               (min (min Count (report_text s.data_size s.data_buffer).length) room) } := by
  have hL := report_text_length s.data_size s.data_buffer
  have hd := fmt_d_length_le s.data_size h0 h1
  have ht := takeWhile_length_lt s.data_buffer hz
  have hfit : (report_text s.data_size s.data_buffer).length + 1 ≤ PROC_BUFFER_SIZE := by
    simp only [PROC_BUFFER_SIZE, BUFFER_SIZE] at hlen ⊢
    omega
  have hsize1 : (if (report_text s.data_size s.data_buffer).length > Count then Count
      else (report_text s.data_size s.data_buffer).length)
      = min Count (report_text s.data_size s.data_buffer).length := by
    split_ifs with hc
    · exact (Nat.min_eq_left (le_of_lt hc)).symm
    · exact (Nat.min_eq_right (not_lt.mp hc)).symm
  have hobj : min Count (report_text s.data_size s.data_buffer).length ≤ PROC_BUFFER_SIZE :=
    le_trans (Nat.min_le_right _ _) (by omega)
  unfold proc_read
  simp only [h, Bool.not_false, Bool.not_true, Bool.false_eq_true, if_false,
    sprintf_report_eq s.data_size s.data_buffer hz hlen h0 h1, hsize1]
  unfold copy_to_user
  rw [if_neg (by omega)]
  simp only
  have hsub : sub_size_t (min Count (report_text s.data_size s.data_buffer).length)
      (min Count (report_text s.data_size s.data_buffer).length -
        min (min Count (report_text s.data_size s.data_buffer).length) room)
      = min (min Count (report_text s.data_size s.data_buffer).length) room := by
    rw [sub_size_t_of_le (Nat.sub_le _ _)
      (by simp only [PROC_BUFFER_SIZE, BUFFER_SIZE] at hobj; omega)]
    omega
  rw [hsub, to_ssize_t_of_lt (by simp only [PROC_BUFFER_SIZE, BUFFER_SIZE] at hobj; omega)]

/-- The report of a buffer that holds a zero byte: in such a state a
`proc_read` call that flips the toggle to true produces the text
`"Size of buffer: <data_size>.\nCapasity of buffer: 1024.\nBuffer contains:\n<buffer>\n"` of
length `L`, returns `min Count L` minus the number of uncopied bytes and delivers that
many leading bytes of the text; when nothing stays uncopied it returns `min Count L` and
delivers the first `min Count L` bytes.  A call that flips the toggle to false returns 0
and delivers nothing. -/
theorem proc_read_report (s : State) (room Count : Nat)
    (hz : 0 ∈ s.data_buffer) (hlen : s.data_buffer.length ≤ BUFFER_SIZE)
    (h0 : -2 ^ 31 ≤ s.data_size) (h1 : s.data_size < 2 ^ 31) :
    (s.is_read = false →
      ∃ r, proc_read s room Count = some r ∧
        r.state = { s with is_read := true } ∧
        sprintf_report s.data_size s.data_buffer = some (report_text s.data_size s.data_buffer) ∧
        r.ret = (report_count s Count : Int) - (report_uncopied s room Count : Int) ∧
        r.out = (report_text s.data_size s.data_buffer).take
          (report_count s Count - report_uncopied s room Count) ∧
        (report_uncopied s room Count = 0 →
          r.ret = (report_count s Count : Int) ∧
          r.out = (report_text s.data_size s.data_buffer).take (report_count s Count))) ∧
    (s.is_read = true →
      proc_read s room Count =
        some { state := { s with is_read := false }, ret := 0, out := [] }) := by
  refine ⟨fun h => ?_, fun h => proc_read_off s room Count h⟩
  have hL := report_text_length s.data_size s.data_buffer
  have hd := fmt_d_length_le s.data_size h0 h1
  have ht := takeWhile_length_lt s.data_buffer hz
  have hobj : report_count s Count ≤ PROC_BUFFER_SIZE := by
    unfold report_count
    refine le_trans (Nat.min_le_right _ _) ?_
    simp only [PROC_BUFFER_SIZE, BUFFER_SIZE] at hlen ⊢
    omega
  have hunc : report_uncopied s room Count =
      report_count s Count - min (report_count s Count) room := by
    unfold report_uncopied copy_to_user
    rw [if_neg (by omega)]
  have hdel : report_count s Count - report_uncopied s room Count =
      min (report_count s Count) room := by
    rw [hunc]
    omega
  refine ⟨_, proc_read_on s room Count h hz hlen h0 h1, rfl,
    sprintf_report_eq s.data_size s.data_buffer hz hlen h0 h1, ?_, ?_, ?_⟩
  · show ((min (report_count s Count) room : Nat) : Int) = _
    omega
  · show (report_text s.data_size s.data_buffer).take (min (report_count s Count) room) = _
    rw [hdel]
  · intro hu
    rw [hu, Nat.sub_zero] at hdel
    constructor
    · show ((min (report_count s Count) room : Nat) : Int) = _
      rw [← hdel]
    · show (report_text s.data_size s.data_buffer).take (min (report_count s Count) room) = _
      rw [← hdel]

set_option maxRecDepth 100000 in
/-- Instance of `proc_read_report`: with `"hello"` stored and the toggle false, a request of
20 bytes into 100 writable bytes returns the first 20 bytes of the report. -/
theorem proc_read_report_witness :
    (0 ∈ hello_state.data_buffer ∧ hello_state.data_buffer.length ≤ BUFFER_SIZE ∧
      -2 ^ 31 ≤ hello_state.data_size ∧ hello_state.data_size < 2 ^ 31 ∧
      hello_state.is_read = false) ∧
    (∃ r, proc_read hello_state 100 20 = some r ∧
        r.state = { hello_state with is_read := true } ∧
        sprintf_report hello_state.data_size hello_state.data_buffer =
          some (report_text hello_state.data_size hello_state.data_buffer) ∧
        r.ret = (report_count hello_state 20 : Int) - (report_uncopied hello_state 100 20 : Int) ∧
        r.out = (report_text hello_state.data_size hello_state.data_buffer).take
          (report_count hello_state 20 - report_uncopied hello_state 100 20) ∧
        (report_uncopied hello_state 100 20 = 0 →
          r.ret = (report_count hello_state 20 : Int) ∧
          r.out = (report_text hello_state.data_size hello_state.data_buffer).take
            (report_count hello_state 20))) :=
  ⟨by decide, (proc_read_report hello_state 100 20 (by decide) (by decide) (by decide)
    (by decide)).1 rfl⟩

set_option maxRecDepth 100000 in
/-- The report of the state that holds `"hello"`, byte for byte. -/
theorem report_text_hello :
    sprintf_report hello_state.data_size hello_state.data_buffer =
      some (bytes "Size of buffer: 5.\nCapasity of buffer: 1024.\nBuffer contains:\nhello\n") := by
  decide

/-! ## Sequences of calls: typing and the toggle -/

/-- The destination of `copy_from_user` keeps its size. -/
theorem copy_from_user_length (dst : List Nat) (size : Nat) (src : List Nat) (n : Nat)
    (h : dst.length = size) : (copy_from_user dst size src n).1.length = size := by
  unfold copy_from_user
  split_ifs with hn
  · exact h
  · simp only [List.length_append, List.length_take, List.length_replicate, List.length_drop]
    omega

/-- A defined `proc_read` changes nothing but the toggle, which it flips. -/
theorem proc_read_state (s : State) (room Count : Nat) (r : ReadResult)
    (h : proc_read s room Count = some r) : r.state = { s with is_read := !s.is_read } := by
  unfold proc_read at h
  simp only at h
  split_ifs at h with hb
  · cases h
    rfl
  · split at h
    · cases h
    · cases h
      rfl

/-- Every call keeps the typing of the statics. -/
theorem step_typed (s s1 : State) (c : Call) (ht : s.typed) (h : step s c = some s1) :
    s1.typed := by
  obtain ⟨hb, h0, h1⟩ := ht
  cases c with
  | dev_open =>
    simp only [step, Option.some.injEq] at h
    subst h
    unfold dev_open
    split_ifs <;> exact ⟨hb, h0, h1⟩
  | dev_release =>
    simp only [step, Option.some.injEq] at h
    subst h
    exact ⟨hb, h0, h1⟩
  | dev_read room len =>
    simp only [step, Option.some.injEq] at h
    subst h
    unfold dev_read
    simp only
    split_ifs
    · exact ⟨hb, h0, h1⟩
    · exact ⟨hb, by norm_num, by norm_num⟩
  | dev_write buffer len =>
    simp only [step, Option.some.injEq] at h
    subst h
    have hle := write_size_le len
    have hge := write_size_ge len
    have hlen := copy_from_user_length s.data_buffer BUFFER_SIZE buffer
      (to_size_t (write_size len)) hb
    have hlt : write_size len < 2 ^ 31 := by
      simp only [BUFFER_SIZE] at hle
      omega
    unfold dev_write
    simp only
    split_ifs <;> exact ⟨hlen, hge, hlt⟩
  | proc_read room Count =>
    simp only [step, Option.map_eq_some'] at h
    obtain ⟨r, hr, rfl⟩ := h
    rw [proc_read_state s room Count r hr]
    exact ⟨hb, h0, h1⟩

/-- The toggle after a call: flipped by `proc_read`, kept by the device calls. -/
theorem step_is_read (s s1 : State) (c : Call) (h : step s c = some s1) :
    s1.is_read = (s.is_read ^^ decide (proc_read_calls [c] % 2 = 1)) := by
  cases c with
  | dev_open =>
    simp only [step, Option.some.injEq] at h
    subst h
    unfold dev_open
    split_ifs <;> simp [proc_read_calls]
  | dev_release =>
    simp only [step, Option.some.injEq] at h
    subst h
    simp [dev_release, proc_read_calls]
  | dev_read room len =>
    simp only [step, Option.some.injEq] at h
    subst h
    unfold dev_read
    simp only
    split_ifs <;> simp [proc_read_calls]
  | dev_write buffer len =>
    simp only [step, Option.some.injEq] at h
    subst h
    unfold dev_write
    simp only
    split_ifs <;> simp [proc_read_calls]
  | proc_read room Count =>
    simp only [step, Option.map_eq_some'] at h
    obtain ⟨r, hr, rfl⟩ := h
    rw [proc_read_state s room Count r hr]
    simp [proc_read_calls]

/-- The count of `proc_read` calls of a sequence, split at its first call. -/
theorem proc_read_calls_cons (c : Call) (cs : List Call) :
    proc_read_calls (c :: cs) = proc_read_calls [c] + proc_read_calls cs := by
  cases c <;> simp [proc_read_calls, Nat.add_comm]

/-- Typing and toggle after a sequence of calls: the typing is kept and the toggle has been
flipped once per `proc_read` call. -/
theorem run_typed_is_read (cs : List Call) (s s1 : State) (ht : s.typed)
    (h : run s cs = some s1) :
    s1.typed ∧ s1.is_read = (s.is_read ^^ decide (proc_read_calls cs % 2 = 1)) := by
  induction cs generalizing s with
  | nil =>
    simp only [run, Option.some.injEq] at h
    subst h
    exact ⟨ht, by simp [proc_read_calls]⟩
  | cons c cs ih =>
    unfold run at h
    split at h
    · cases h
    · rename_i s2 hs2
      obtain ⟨ht1, hr1⟩ := ih s2 (step_typed s s2 c ht hs2) h
      refine ⟨ht1, ?_⟩
      have hc := proc_read_calls_cons c cs
      have hs := step_is_read s s2 c hs2
      rcases Nat.mod_two_eq_zero_or_one (proc_read_calls [c]) with h1 | h1 <;>
        rcases Nat.mod_two_eq_zero_or_one (proc_read_calls cs) with h2 | h2
      · have h3 : proc_read_calls (c :: cs) % 2 = 0 := by omega
        simp [hr1, hs, h1, h2, h3]
      · have h3 : proc_read_calls (c :: cs) % 2 = 1 := by omega
        simp [hr1, hs, h1, h2, h3]
      · have h3 : proc_read_calls (c :: cs) % 2 = 1 := by omega
        simp [hr1, hs, h1, h2, h3]
      · have h3 : proc_read_calls (c :: cs) % 2 = 0 := by omega
        simp [hr1, hs, h1, h2, h3]

/-- The statics of a freshly loaded module are well typed. -/
theorem fresh_typed : State.fresh.typed := by
  refine ⟨?_, by norm_num [State.fresh], by norm_num [State.fresh]⟩
  simp [State.fresh]

/-! ## Alternation of the diagnostic reads -/

/-- The end-to-end example of the specification: a write of 2000 bytes of `'A'` to a
freshly loaded module returns 1024 and leaves the length 1024 and 1024 bytes of `'A'`. -/
theorem write_fills_buffer :
    dev_write State.fresh (List.replicate 2000 65) 2000 =
      { state := full_state, ret := 1024 } := by
  have h := dev_write_in_range State.fresh (List.replicate 2000 65) 2000 (by decide)
    (by rw [List.length_replicate]; decide)
  have hmin : min 2000 BUFFER_SIZE = BUFFER_SIZE := by decide
  have hmin2 : min BUFFER_SIZE 2000 = BUFFER_SIZE := by decide
  have htake : (List.replicate 2000 65).take BUFFER_SIZE = List.replicate BUFFER_SIZE 65 := by
    rw [List.take_replicate, hmin2]
  have hdrop : State.fresh.data_buffer.drop BUFFER_SIZE = [] :=
    List.drop_eq_nil_of_le (le_of_eq (List.length_replicate _ _))
  rw [h, hmin, htake, hdrop, List.append_nil]
  rfl

set_option maxRecDepth 100000 in
/-- C8 (counterexample): on a freshly loaded module the first `proc_read`, an odd-numbered
call, returns 0 bytes when the requested length is 0, and also when the caller's memory
takes no byte: the byte count of an odd-numbered call does depend on the arguments.  It
depends on the buffer too: after the write of 2000 bytes of `'A'` no zero byte is left in
`data_buffer`, the conversion `%s` of the first `proc_read` reads past the array, and the
call has no defined byte count. -/
theorem proc_read_first_call_empty :
    run State.fresh [] = some State.fresh ∧ proc_read_calls [] = 0 ∧
    proc_read State.fresh 100 0 =
      some { state := { State.fresh with is_read := true }, ret := 0, out := [] } ∧
    proc_read State.fresh 0 100 =
      some { state := { State.fresh with is_read := true }, ret := 0, out := [] } ∧
    exec State.fresh [Call.dev_write (List.replicate 2000 65) 2000] = full_state ∧
    proc_read_calls [Call.dev_write (List.replicate 2000 65) 2000] = 0 ∧
    0 ∉ full_state.data_buffer ∧
    proc_read full_state 2000 2000 = none := by
  refine ⟨by decide, by decide, by decide, by decide, ?_, by decide, by decide, by decide⟩
  exact congrArg CallResult.state write_fills_buffer

/-! ## Module load -/

/-- When one of the first three stages (device number, cdev, class) is the first to fail,
`chrdev_init` returns a negative value and undoes exactly the completed stages, in reverse
order. -/
theorem chrdev_init_unwinds_early (s : State) (k : Setup)
    (hret : k.alloc_chrdev_region < 0 ∨ k.cdev_add < 0 ∨ k.class_create_is_err = true) :
    (chrdev_init s k).ret < 0 ∧
    (chrdev_init s k).calls.filter KCall.is_undo = expected_undo k := by
  unfold chrdev_init expected_undo completed_stages
  by_cases h1 : k.alloc_chrdev_region < 0
  · simp [h1, Stage.all, Stage.fails, List.takeWhile, KCall.is_undo]
  · by_cases h2 : k.cdev_add < 0
    · simp [h1, h2, Stage.all, Stage.fails, List.takeWhile, KCall.is_undo, cdev_err,
        Stage.undo]
    · have h3 : k.class_create_is_err = true := by
        rcases hret with h | h | h
        · exact absurd h h1
        · exact absurd h h2
        · exact h
      simp [h1, h2, h3, Stage.all, Stage.fails, List.takeWhile, KCall.is_undo, cdev_err,
        class_err, Stage.undo]

/-- C10 (code defect, evaluated at the failing inputs).  When `device_create` is the first
call to fail, three stages are complete and the unwinding asked for is `class_destroy`,
`cdev_del`, `unregister_chrdev_region`, yet `chrdev_init` goes on with the two proc stages,
undoes nothing and returns 0: the test after `device_create` reads `IS_ERR(pclass)`.  When
`proc_mkdir` or `proc_create` is the first call to fail, `chrdev_init` returns -1 but the
calls from label `device_err` on never make `device_destroy`, so the device node stays;
under a failing `proc_create` it also calls `proc_remove` on the file that was not
created. -/
theorem chrdev_init_unwinding_defects :
    (completed_stages setup_device_create_fails =
        [Stage.allocate_device_number, Stage.init_and_add_cdev, Stage.create_class] ∧
      expected_undo setup_device_create_fails =
        [KCall.class_destroy, KCall.cdev_del, KCall.unregister_chrdev_region] ∧
      (chrdev_init State.fresh setup_device_create_fails).ret = 0 ∧
      (chrdev_init State.fresh setup_device_create_fails).calls =
        [KCall.alloc_chrdev_region, KCall.cdev_init, KCall.cdev_add, KCall.class_create,
          KCall.device_create, KCall.proc_mkdir, KCall.proc_create] ∧
      (chrdev_init State.fresh setup_device_create_fails).calls.filter KCall.is_undo = []) ∧
    (expected_undo setup_proc_mkdir_fails =
        [KCall.device_destroy, KCall.class_destroy, KCall.cdev_del,
          KCall.unregister_chrdev_region] ∧
      (chrdev_init State.fresh setup_proc_mkdir_fails).ret = -1 ∧
      (chrdev_init State.fresh setup_proc_mkdir_fails).calls.filter KCall.is_undo =
        [KCall.class_destroy, KCall.cdev_del, KCall.unregister_chrdev_region]) ∧
    (expected_undo setup_proc_create_fails =
        [KCall.proc_remove_folder, KCall.device_destroy, KCall.class_destroy, KCall.cdev_del,
          KCall.unregister_chrdev_region] ∧
      (chrdev_init State.fresh setup_proc_create_fails).ret = -1 ∧
      (chrdev_init State.fresh setup_proc_create_fails).calls.filter KCall.is_undo =
        [KCall.proc_remove_file, KCall.proc_remove_folder, KCall.class_destroy, KCall.cdev_del,
          KCall.unregister_chrdev_region]) := by
  decide

/-! ## Ordered setup and planned teardown -/

/-- C11: when every setup stage succeeds `chrdev_init` returns 0 without any undo call,
having acquired the char-device region, the cdev, the class, the device node, the proc
folder and the proc file in this order.  `chrdev_exit` then makes the undo calls of the six
stages in the reverse of that order (proc file, proc folder, device node, class, cdev,
region), releases each resource exactly once, and leaves nothing acquired. -/
theorem chrdev_init_exit_ordered (s : State) (k : Setup)
    (hok : ∀ st : Stage, st.fails k = false) :
    (chrdev_init s k).ret = 0 ∧
    (chrdev_init s k).calls.filterMap KCall.acquires = Stage.all ∧
    (chrdev_init s k).calls.filter KCall.is_undo = [] ∧
    held_after [] (chrdev_init s k).calls =
      [Stage.allocate_device_number, Stage.init_and_add_cdev, Stage.create_class,
        Stage.create_device_node, Stage.create_proc_folder, Stage.create_proc_file] ∧
    chrdev_exit = Stage.all.reverse.map Stage.undo ∧
    chrdev_exit.filterMap KCall.releases =
      [Stage.create_proc_file, Stage.create_proc_folder, Stage.create_device_node,
        Stage.create_class, Stage.init_and_add_cdev, Stage.allocate_device_number] ∧
    (∀ st : Stage, (chrdev_exit.filterMap KCall.releases).count st = 1) ∧
    held_after (held_after [] (chrdev_init s k).calls) chrdev_exit = [] := by
  have h1 : ¬ k.alloc_chrdev_region < 0 := by
    simpa [Stage.fails] using hok Stage.allocate_device_number
  have h2 : ¬ k.cdev_add < 0 := by
    simpa [Stage.fails] using hok Stage.init_and_add_cdev
  have h3 : k.class_create_is_err = false := hok Stage.create_class
  have h5 : k.proc_mkdir_null = false := hok Stage.create_proc_folder
  have h6 : k.proc_create_null = false := hok Stage.create_proc_file
  have hinit : chrdev_init s k =
      { state := { s with is_open := 0, data_size := 0 }, ret := 0,
        calls := [KCall.alloc_chrdev_region, KCall.cdev_init, KCall.cdev_add,
          KCall.class_create, KCall.device_create, KCall.proc_mkdir, KCall.proc_create] } := by
    unfold chrdev_init
    simp [h1, h2, h3, h5, h6]
  have hcalls : (chrdev_init s k).calls =
      [KCall.alloc_chrdev_region, KCall.cdev_init, KCall.cdev_add, KCall.class_create,
        KCall.device_create, KCall.proc_mkdir, KCall.proc_create] := by rw [hinit]
  rw [hcalls]
  refine ⟨by rw [hinit], by decide, by decide, by decide, by decide, by decide, ?_,
    by decide⟩
  intro st
  cases st <;> decide

/-- Instance of `chrdev_init_exit_ordered`: a load in which every kernel call answers with
success, followed by the unload. -/
theorem chrdev_init_exit_ordered_witness :
    (∀ st : Stage, st.fails setup_all_succeed = false) ∧
    (chrdev_init State.fresh setup_all_succeed).ret = 0 ∧
    held_after (held_after [] (chrdev_init State.fresh setup_all_succeed).calls) chrdev_exit
      = [] :=
  ⟨fun st => by cases st <;> decide,
    (chrdev_init_exit_ordered State.fresh setup_all_succeed
      (fun st => by cases st <;> decide)).1,
    (chrdev_init_exit_ordered State.fresh setup_all_succeed
      (fun st => by cases st <;> decide)).2.2.2.2.2.2.2⟩

/-! ## Range of the stored length -/

/-- An `int` converted to `size_t` and narrowed back is the same `int`. -/
theorem to_int_to_size_t {i : Int} (h0 : -2 ^ 31 ≤ i) (h1 : i < 2 ^ 31) :
    to_int (to_size_t i) = i := by
  unfold to_int to_size_t
  split_ifs with h <;> omega

/-- A write request whose narrowed length is negative: the copy is refused whole, the call
returns `-EFAULT`, the buffer is untouched and the negative length stays in `data_size`. -/
theorem dev_write_of_negative (s : State) (buffer : List Nat) (len : Nat)
    (hneg : write_size len < 0) :
    dev_write s buffer len =
      { state := { s with data_size := write_size len }, ret := -EFAULT } := by
  have hge := write_size_ge len
  have hsz := to_size_t_of_neg hneg hge
  have hint := to_int_to_size_t hge (by omega : write_size len < 2 ^ 31)
  have href : BUFFER_SIZE < to_size_t (write_size len) := by
    rw [hsz]
    simp only [BUFFER_SIZE]
    omega
  have hret : to_int (to_size_t (write_size len)) ≠ 0 := by
    rw [hint]
    omega
  unfold dev_write
  simp only [copy_from_user_refused _ _ _ _ href, if_pos hret]

/-- One call keeps the stored length inside `[0, 1024]` when a write request, if it is one,
has a length inside `int`. -/
theorem step_data_size (s s1 : State) (c : Call) (hc : c.length_in_int)
    (h0 : 0 ≤ s.data_size) (h1 : s.data_size ≤ (BUFFER_SIZE : Int))
    (h : step s c = some s1) :
    0 ≤ s1.data_size ∧ s1.data_size ≤ (BUFFER_SIZE : Int) := by
  cases c with
  | dev_open =>
    simp only [step, Option.some.injEq] at h
    subst h
    unfold dev_open
    split_ifs <;> exact ⟨h0, h1⟩
  | dev_release =>
    simp only [step, Option.some.injEq] at h
    subst h
    exact ⟨h0, h1⟩
  | dev_read room len =>
    simp only [step, Option.some.injEq] at h
    subst h
    unfold dev_read
    simp only
    split_ifs
    · exact ⟨h0, h1⟩
    · exact ⟨le_refl _, Int.natCast_nonneg _⟩
  | dev_write buffer len =>
    simp only [step, Option.some.injEq] at h
    subst h
    have hw := write_size_of_lt (show len < 2 ^ 31 from hc)
    have hle := write_size_le len
    unfold dev_write
    simp only
    split_ifs <;> exact ⟨by rw [hw]; exact Int.natCast_nonneg _, hle⟩
  | proc_read room Count =>
    simp only [step, Option.map_eq_some'] at h
    obtain ⟨r, hr, rfl⟩ := h
    rw [proc_read_state s room Count r hr]
    exact ⟨h0, h1⟩

/-- As long as every write request has a length inside `int`, the stored length of every
state reached from a freshly loaded module lies in `[0, 1024]`, whatever the outcome of
the copies. -/
theorem run_data_size_in_range (cs : List Call) (s s1 : State)
    (hcs : ∀ c ∈ cs, c.length_in_int)
    (h0 : 0 ≤ s.data_size) (h1 : s.data_size ≤ (BUFFER_SIZE : Int))
    (h : run s cs = some s1) :
    0 ≤ s1.data_size ∧ s1.data_size ≤ (BUFFER_SIZE : Int) := by
  induction cs generalizing s with
  | nil =>
    simp only [run, Option.some.injEq] at h
    subst h
    exact ⟨h0, h1⟩
  | cons c cs ih =>
    unfold run at h
    split at h
    · cases h
    · rename_i s2 hs2
      obtain ⟨h2, h3⟩ := step_data_size s s2 c (hcs c (List.mem_cons_self _ _)) h0 h1 hs2
      exact ih s2 (fun c1 hc1 => hcs c1 (List.mem_cons_of_mem _ hc1)) h2 h3 h

set_option maxRecDepth 100000 in
/-- C12 (counterexample): the requested length `2 ^ 32 - 1 = 4294967295` is a value of
`size_t`.  For it the function body of `dev_write` narrows the length to the `int` -1 and
assigns it before the copy, the copy is refused, the call returns `-EFAULT`, and the state
has `data_size = -1`, outside `[0, 1024]`.  The statement over all of `size_t` therefore
fails on the function body; such a length is above `MAX_RW_COUNT` and is never passed to
the driver. -/
theorem data_size_invariant_broken :
    (chrdev_init State.fresh setup_all_succeed).state = State.fresh ∧
    State.fresh.data_size = 0 ∧
    4294967295 < 2 ^ 64 ∧
    (dev_write State.fresh (List.replicate 4294967295 65) 4294967295).ret = -EFAULT ∧
    run State.fresh [Call.dev_write (List.replicate 4294967295 65) 4294967295] =
      some { State.fresh with data_size := -1 } ∧
    ¬ (0 ≤ ({ State.fresh with data_size := -1 } : State).data_size) := by
  have hw : write_size 4294967295 = -1 := by decide
  have h := dev_write_of_negative State.fresh (List.replicate 4294967295 65) 4294967295
    (by rw [hw]; decide)
  refine ⟨by decide, rfl, by decide, congrArg CallResult.ret h, ?_, by decide⟩
  show (match step State.fresh (Call.dev_write (List.replicate 4294967295 65) 4294967295)
    with
    | none => none
    | some s1 => run s1 []) = _
  have hs : step State.fresh (Call.dev_write (List.replicate 4294967295 65) 4294967295) =
      some { State.fresh with data_size := write_size 4294967295 } :=
    congrArg (fun r : CallResult => some r.state) h
  rw [hs, hw]
  rfl

/-! ## The report fits its staging buffer -/

/-- A stored length in `[0, 1024]` printed with `%d` takes at most 4 characters. -/
theorem fmt_d_length_le_four (i : Int) (h0 : 0 ≤ i) (h1 : i ≤ (BUFFER_SIZE : Int)) :
    (fmt_d i).length ≤ 4 := by
  obtain ⟨n, rfl⟩ := Int.eq_ofNat_of_zero_le h0
  have hn : n < 10 ^ 4 := by
    simp only [BUFFER_SIZE] at h1
    omega
  have := Nat.toDigitsCore_length 10 (by decide) (n + 1) n 4 hn (by decide)
  show ((Nat.toDigits 10 n).map Char.toNat).length ≤ 4
  simp only [List.length_map, Nat.toDigits]
  omega

/-- Number of characters that `sprintf` writes: 62 from the format and the capacity, the
digits of the stored length, and the string. -/
theorem sprintf_text_length (data_size : Int) (str : List Nat) :
    (sprintf_text data_size str).length = 62 + (fmt_d data_size).length + str.length := by
  have hcap : fmt_d (BUFFER_SIZE : Int) = bytes "1024" := by decide
  have h1 : (bytes "Size of buffer: ").length = 16 := by decide
  have h2 : (bytes ".\nCapasity of buffer: ").length = 22 := by decide
  have h3 : (bytes "1024").length = 4 := by decide
  have h4 : (bytes ".\nBuffer contains:\n").length = 19 := by decide
  have h5 : (bytes "\n").length = 1 := by decide
  unfold sprintf_text
  simp only [List.length_append, hcap, h1, h2, h3, h4, h5]
  omega

/-- C14: `PROC_BUFFER_SIZE` is 1124, and for every stored length in `[0, 1024]` the text
that `sprintf` writes for a string of at most 1024 bytes, together with its terminating
zero byte, takes at most 1091 bytes, hence at most `PROC_BUFFER_SIZE`.  In particular, for
a `data_buffer` of 1024 bytes that holds a zero byte the conversion `%s` is defined, its
string is shorter than 1024 bytes, and the `sprintf` call of `proc_read` writes that text
without going past the end of `proc_buffer`. -/
theorem report_fits_proc_buffer (data_size : Int) (data_buffer : List Nat)
    (h0 : 0 ≤ data_size) (h1 : data_size ≤ (BUFFER_SIZE : Int))
    (hlen : data_buffer.length = BUFFER_SIZE) (hz : 0 ∈ data_buffer) :
    PROC_BUFFER_SIZE = 1124 ∧
    (∀ str : List Nat, str.length ≤ BUFFER_SIZE →
      (sprintf_text data_size str).length + 1 ≤ 1091 ∧
      (sprintf_text data_size str).length + 1 ≤ PROC_BUFFER_SIZE) ∧
    fmt_s data_buffer = some (data_buffer.takeWhile (fun b => b ≠ 0)) ∧
    (data_buffer.takeWhile (fun b => b ≠ 0)).length < BUFFER_SIZE ∧
    (sprintf_text data_size (data_buffer.takeWhile (fun b => b ≠ 0))).length + 1
      ≤ PROC_BUFFER_SIZE ∧
    sprintf_report data_size data_buffer =
      some (sprintf_text data_size (data_buffer.takeWhile (fun b => b ≠ 0))) := by
  have hd := fmt_d_length_le_four data_size h0 h1
  have hall : ∀ str : List Nat, str.length ≤ BUFFER_SIZE →
      (sprintf_text data_size str).length + 1 ≤ 1091 ∧
      (sprintf_text data_size str).length + 1 ≤ PROC_BUFFER_SIZE := by
    intro str hstr
    rw [sprintf_text_length]
    simp only [PROC_BUFFER_SIZE, BUFFER_SIZE] at hstr ⊢
    omega
  have ht : (data_buffer.takeWhile (fun b => b ≠ 0)).length < BUFFER_SIZE := by
    rw [← hlen]
    exact takeWhile_length_lt data_buffer hz
  have hfit := (hall _ (le_of_lt ht)).2
  refine ⟨rfl, hall, fmt_s_of_mem data_buffer hz, ht, hfit, ?_⟩
  unfold sprintf_report
  rw [fmt_s_of_mem data_buffer hz]
  unfold sprintf_text at hfit ⊢
  simp only [if_pos hfit]

set_option maxRecDepth 100000 in
/-- Instance of `report_fits_proc_buffer`: the state that holds `"hello"`. -/
theorem report_fits_proc_buffer_witness :
    (0 ≤ hello_state.data_size ∧ hello_state.data_size ≤ (BUFFER_SIZE : Int) ∧
      hello_state.data_buffer.length = BUFFER_SIZE ∧ 0 ∈ hello_state.data_buffer) ∧
    (sprintf_text hello_state.data_size
      (hello_state.data_buffer.takeWhile (fun b => b ≠ 0))).length + 1 ≤ PROC_BUFFER_SIZE ∧
    sprintf_report hello_state.data_size hello_state.data_buffer =
      some (sprintf_text hello_state.data_size
        (hello_state.data_buffer.takeWhile (fun b => b ≠ 0))) :=
  ⟨by decide,
    (report_fits_proc_buffer hello_state.data_size hello_state.data_buffer (by decide)
      (by decide) (by decide) (by decide)).2.2.2.2.1,
    (report_fits_proc_buffer hello_state.data_size hello_state.data_buffer (by decide)
      (by decide) (by decide) (by decide)).2.2.2.2.2⟩

/-! ## The content of the report and the stored length -/

/-- `dev_read` never changes a byte of `data_buffer`, whether its copy succeeds or not. -/
theorem dev_read_data_buffer (s : State) (room len : Nat) :
    (dev_read s room len).state.data_buffer = s.data_buffer := by
  unfold dev_read
  simp only
  split_ifs <;> rfl

/-- The number of bytes `dev_write` asks the copy for, when the copy is not refused, is at
most `min len 1024`. -/
theorem write_request_le (len : Nat) (h : to_size_t (write_size len) ≤ BUFFER_SIZE) :
    to_size_t (write_size len) ≤ min len BUFFER_SIZE := by
  unfold write_size to_int to_size_t BUFFER_SIZE at *
  simp only at h ⊢
  split_ifs at h ⊢ <;> omega

/-- `copy_from_user` leaves the bytes of the destination from offset `n` on as they were. -/
theorem copy_from_user_drop (dst : List Nat) (size : Nat) (src : List Nat) (n m : Nat)
    (hm : n ≤ m) :
    (copy_from_user dst size src n).1.drop m = dst.drop m := by
  unfold copy_from_user
  split_ifs with h
  · rfl
  · have hlen : (src.take (min n src.length) ++
        List.replicate (n - min n src.length) 0).length = n := by
      simp only [List.length_append, List.length_take, List.length_replicate]
      omega
    simp only
    rw [List.drop_append_eq_append_drop, hlen, List.drop_eq_nil_of_le (by omega),
      List.nil_append, List.drop_drop]
    congr 1
    omega

/-- `dev_write` changes only the first `min len 1024` bytes of `data_buffer`. -/
theorem dev_write_data_buffer_drop (s : State) (buffer : List Nat) (len : Nat) :
    (dev_write s buffer len).state.data_buffer.drop (min len BUFFER_SIZE) =
      s.data_buffer.drop (min len BUFFER_SIZE) := by
  have hbuf : (dev_write s buffer len).state.data_buffer =
      (copy_from_user s.data_buffer BUFFER_SIZE buffer (to_size_t (write_size len))).1 := by
    unfold dev_write
    simp only
    split_ifs <;> rfl
  rw [hbuf]
  by_cases h : to_size_t (write_size len) ≤ BUFFER_SIZE
  · exact copy_from_user_drop _ _ _ _ _ (write_request_le len h)
  · rw [copy_from_user_refused _ _ _ _ (by omega)]

/-- `dev_write` keeps the size of a `data_buffer` of `BUFFER_SIZE` bytes. -/
theorem dev_write_data_buffer_length (s : State) (buffer : List Nat) (len : Nat)
    (hb : s.data_buffer.length = BUFFER_SIZE) :
    (dev_write s buffer len).state.data_buffer.length = BUFFER_SIZE := by
  have hbuf : (dev_write s buffer len).state.data_buffer =
      (copy_from_user s.data_buffer BUFFER_SIZE buffer (to_size_t (write_size len))).1 := by
    unfold dev_write
    simp only
    split_ifs <;> rfl
  rw [hbuf]
  exact copy_from_user_length _ _ _ _ hb

/-- For well-typed statics with a zero byte in the buffer, the string part of what `sprintf`
writes is the buffer up to its first zero byte, whatever the stored length is. -/
theorem sprintf_report_eq_text (data_size : Int) (data_buffer : List Nat)
    (hz : 0 ∈ data_buffer) (hlen : data_buffer.length ≤ BUFFER_SIZE)
    (h0 : -2 ^ 31 ≤ data_size) (h1 : data_size < 2 ^ 31) :
    sprintf_report data_size data_buffer =
      some (sprintf_text data_size (data_buffer.takeWhile (fun b => b ≠ 0))) := by
  rw [sprintf_report_eq data_size data_buffer hz hlen h0 h1, report_text_eq]
  rfl

/-- A zero-free sequence followed by at least one zero byte reads as that sequence. -/
theorem takeWhile_append_zeros (d : List Nat) (k : Nat) (hd : ∀ b ∈ d, b ≠ 0) (hk : 0 < k) :
    (d ++ List.replicate k 0).takeWhile (fun b => b ≠ 0) = d := by
  induction d with
  | nil =>
    obtain ⟨j, rfl⟩ := Nat.exists_eq_succ_of_ne_zero (Nat.pos_iff_ne_zero.mp hk)
    simp [List.replicate, List.takeWhile]
  | cons a t ih =>
    have ha : a ≠ 0 := hd a (List.mem_cons_self _ _)
    have ht : ∀ b ∈ t, b ≠ 0 := fun b hb => hd b (List.mem_cons_of_mem _ hb)
    simp only [List.cons_append, List.takeWhile_cons]
    simpa [ha] using ih ht

/-- The state after `d`, shorter than the capacity, has been written into an all-zero
buffer and drained by a read whose copy is complete. -/
theorem written_then_drained (s : State) (d : List Nat) (room r : Nat)
    (hlen : d.length < BUFFER_SIZE) (hzero : s.data_buffer = List.replicate BUFFER_SIZE 0)
    (hroom : min r d.length ≤ room) :
    (dev_read (dev_write s d d.length).state room r).state =
      { s with data_size := 0,
               data_buffer := d ++ List.replicate (BUFFER_SIZE - d.length) 0 } := by
  have hlt : d.length < 2 ^ 31 := by
    simp only [BUFFER_SIZE] at hlen
    omega
  have hmin : min d.length BUFFER_SIZE = d.length := Nat.min_eq_left (le_of_lt hlen)
  have hw := write_size_of_lt hlt
  have ht : (write_size d.length).toNat = d.length := by
    rw [hw, hmin]
    exact Int.toNat_natCast _
  have hwr := dev_write_in_range s d d.length hlt (by rw [hmin])
  have hrd := dev_read_after_write s d d.length room r
    (by rw [hw]; exact Int.natCast_nonneg _) (by rw [ht]) (by rw [ht]; exact hroom)
  rw [hrd, hwr, hmin, hzero]
  simp [List.drop_replicate]

/-- C13: the content section of the report does not depend on the stored length.
`dev_read` never changes a byte of `data_buffer`; `dev_write` changes only its first
`min len 1024` bytes and keeps its size; and the string that `proc_read` prints is the
buffer from offset 0 up to its first zero byte, whatever `data_size` is.  Consequently,
when a zero-free byte sequence `d` shorter than 1024 bytes is written into an all-zero
buffer and drained by a read whose copy is complete, the stored length is 0 and the next
reporting `proc_read` formats
`"Size of buffer: 0.\nCapasity of buffer: 1024.\nBuffer contains:\n" ++ d ++ "\n"` and
delivers its leading bytes. -/
theorem report_content_ignores_length :
    (∀ (s : State) (room len : Nat), (dev_read s room len).state.data_buffer = s.data_buffer) ∧
    (∀ (s : State) (buffer : List Nat) (len : Nat),
      (dev_write s buffer len).state.data_buffer.drop (min len BUFFER_SIZE) =
        s.data_buffer.drop (min len BUFFER_SIZE) ∧
      (s.data_buffer.length = BUFFER_SIZE →
        (dev_write s buffer len).state.data_buffer.length = BUFFER_SIZE)) ∧
    (∀ (data_size : Int) (data_buffer : List Nat), 0 ∈ data_buffer →
      data_buffer.length ≤ BUFFER_SIZE → -2 ^ 31 ≤ data_size → data_size < 2 ^ 31 →
      sprintf_report data_size data_buffer =
        some (sprintf_text data_size (data_buffer.takeWhile (fun b => b ≠ 0)))) ∧
    (∀ (s : State) (d : List Nat) (room r room2 Count : Nat),
      (∀ b ∈ d, b ≠ 0) → d.length < BUFFER_SIZE →
      s.data_buffer = List.replicate BUFFER_SIZE 0 → s.is_read = false →
      min r d.length ≤ room →
      (dev_read (dev_write s d d.length).state room r).state.data_size = 0 ∧
      sprintf_report (dev_read (dev_write s d d.length).state room r).state.data_size
          (dev_read (dev_write s d d.length).state room r).state.data_buffer =
        some (bytes "Size of buffer: 0.\nCapasity of buffer: 1024.\nBuffer contains:\n"
          ++ d ++ bytes "\n") ∧
      ∃ res, proc_read (dev_read (dev_write s d d.length).state room r).state room2 Count
          = some res ∧
        res.ret = (res.out.length : Int) ∧
        res.out = (bytes "Size of buffer: 0.\nCapasity of buffer: 1024.\nBuffer contains:\n"
          ++ d ++ bytes "\n").take
            (min (min Count (bytes
              "Size of buffer: 0.\nCapasity of buffer: 1024.\nBuffer contains:\n"
              ++ d ++ bytes "\n").length) room2)) := by
  refine ⟨dev_read_data_buffer, fun s buffer len =>
    ⟨dev_write_data_buffer_drop s buffer len, dev_write_data_buffer_length s buffer len⟩,
    fun ds buf hz hlen h0 h1 => sprintf_report_eq_text ds buf hz hlen h0 h1, ?_⟩
  intro s d room r room2 Count hd hlen hzero hoff hroom
  have hfinal := written_then_drained s d room r hlen hzero hroom
  have hk : 0 < BUFFER_SIZE - d.length := by omega
  have hz : 0 ∈ d ++ List.replicate (BUFFER_SIZE - d.length) 0 := by
    rw [List.mem_append]
    right
    exact List.mem_replicate.mpr ⟨by omega, rfl⟩
  have hbl : (d ++ List.replicate (BUFFER_SIZE - d.length) 0).length ≤ BUFFER_SIZE := by
    rw [List.length_append, List.length_replicate]
    omega
  have hhead : bytes ("Size of buffer: " ++ Int.repr 0 ++ ".\nCapasity of buffer: 1024.\n"
      ++ "Buffer contains:\n") =
      bytes "Size of buffer: 0.\nCapasity of buffer: 1024.\nBuffer contains:\n" := by
    decide
  have htext : report_text 0 (d ++ List.replicate (BUFFER_SIZE - d.length) 0) =
      bytes "Size of buffer: 0.\nCapasity of buffer: 1024.\nBuffer contains:\n" ++ d
        ++ bytes "\n" := by
    unfold report_text
    rw [takeWhile_append_zeros d _ hd hk, hhead]
  have hon := proc_read_on
    { s with data_size := 0, data_buffer := d ++ List.replicate (BUFFER_SIZE - d.length) 0 }
    room2 Count hoff hz hbl (by norm_num) (by norm_num)
  simp only [htext] at hon
  rw [hfinal]
  refine ⟨rfl, ?_, _, hon, ?_, rfl⟩
  · have h := sprintf_report_eq 0 (d ++ List.replicate (BUFFER_SIZE - d.length) 0) hz hbl
      (by norm_num) (by norm_num)
    rw [htext] at h
    exact h
  · show ((min (min Count _) room2 : Nat) : Int) = ((List.take _ _).length : Int)
    rw [List.length_take]
    congr 1
    omega

set_option maxRecDepth 100000 in
/-- Instance of `report_content_ignores_length`: `"hello"` is written to a freshly loaded
module and read back; the next diagnostic read reports the length 0 and still shows
`"hello"`. -/
theorem report_content_ignores_length_witness :
    ((∀ b ∈ bytes "hello", b ≠ 0) ∧ (bytes "hello").length < BUFFER_SIZE ∧
      State.fresh.data_buffer = List.replicate BUFFER_SIZE 0 ∧ State.fresh.is_read = false ∧
      min 10 (bytes "hello").length ≤ 10) ∧
    sprintf_report
        (dev_read (dev_write State.fresh (bytes "hello") (bytes "hello").length).state
          10 10).state.data_size
        (dev_read (dev_write State.fresh (bytes "hello") (bytes "hello").length).state
          10 10).state.data_buffer =
      some (bytes "Size of buffer: 0.\nCapasity of buffer: 1024.\nBuffer contains:\n"
        ++ bytes "hello" ++ bytes "\n") :=
  ⟨by decide,
    (report_content_ignores_length.2.2.2 State.fresh (bytes "hello") 10 10 100 100
      (by decide) (by decide) rfl rfl (by decide)).2.1⟩

/-! ## The open session and the buffer -/

/-- `dev_open` changes nothing but the open flag. -/
theorem dev_open_frame (s : State) :
    (dev_open s).state = { s with is_open := (dev_open s).state.is_open } := by
  unfold dev_open
  split_ifs <;> rfl

/-- `dev_release` changes nothing but the open flag. -/
theorem dev_release_frame (s : State) :
    (dev_release s).state = { s with is_open := 0 } := rfl

/-- `dev_read` does not consult the open flag and does not change it. -/
theorem dev_read_is_open (s : State) (v : Int) (room len : Nat) :
    dev_read { s with is_open := v } room len =
      { state := { (dev_read s room len).state with is_open := v },
        ret := (dev_read s room len).ret, out := (dev_read s room len).out } := by
  unfold dev_read read_count
  simp only
  split_ifs <;> rfl

/-- `dev_write` does not consult the open flag and does not change it. -/
theorem dev_write_is_open (s : State) (v : Int) (buffer : List Nat) (len : Nat) :
    dev_write { s with is_open := v } buffer len =
      { state := { (dev_write s buffer len).state with is_open := v },
        ret := (dev_write s buffer len).ret } := by
  unfold dev_write
  simp only
  split_ifs <;> rfl

/-- `proc_read` does not consult the open flag and does not change it. -/
theorem proc_read_is_open (s : State) (v : Int) (room Count : Nat) :
    proc_read { s with is_open := v } room Count =
      (proc_read s room Count).map (fun r =>
        { state := { r.state with is_open := v }, ret := r.ret, out := r.out }) := by
  unfold proc_read
  simp only
  split_ifs
  · rfl
  · cases sprintf_report s.data_size s.data_buffer <;> rfl

/-- The read at the end of the sequence open, write, release, open, read: it returns the
stored prefix of the written data, as a read right after the write would. -/
theorem session_read (s : State) (d : List Nat) (len room r : Nat)
    (h0 : 0 ≤ write_size len) (hsrc : (write_size len).toNat ≤ d.length)
    (hroom : min r (write_size len).toNat ≤ room) :
    (dev_read (dev_open (dev_release (dev_write (dev_open s).state d len).state).state).state
        room r).ret = ((min r (write_size len).toNat : Nat) : Int) ∧
    (dev_read (dev_open (dev_release (dev_write (dev_open s).state d len).state).state).state
        room r).out = d.take (min r (write_size len).toNat) := by
  have h4 : (dev_open (dev_release (dev_write (dev_open s).state d len).state).state).state =
      { (dev_write (dev_open s).state d len).state with
        is_open := (dev_open (dev_release
          (dev_write (dev_open s).state d len).state).state).state.is_open } := by
    rw [dev_open_frame (dev_release (dev_write (dev_open s).state d len).state).state]
    rfl
  rw [h4, dev_read_is_open, dev_read_after_write (dev_open s).state d len room r h0 hsrc hroom]
  exact ⟨rfl, rfl⟩

/-- Inside the range of `int`, data written in one session survives the release: for a byte
sequence `d` shorter than `2 ^ 31` bytes the sequence open, write `d`, release, open, read
`r` with complete copies returns the first `min r (min |d| 1024)` bytes of `d`. -/
theorem session_round_trip_in_range (s : State) (d : List Nat) (room r : Nat)
    (hlen : d.length < 2 ^ 31) (hroom : min r (min d.length BUFFER_SIZE) ≤ room) :
    (dev_read (dev_open (dev_release
        (dev_write (dev_open s).state d d.length).state).state).state room r).ret
      = ((min r (min d.length BUFFER_SIZE) : Nat) : Int) ∧
    (dev_read (dev_open (dev_release
        (dev_write (dev_open s).state d d.length).state).state).state room r).out
      = d.take (min r (min d.length BUFFER_SIZE)) := by
  have hw := write_size_of_lt hlen
  have ht : (write_size d.length).toNat = min d.length BUFFER_SIZE := by
    rw [hw]
    exact Int.toNat_natCast _
  have h := session_read s d d.length room r (by rw [hw]; exact Int.natCast_nonneg _)
    (by rw [ht]; exact Nat.min_le_left _ _) (by rw [ht]; exact hroom)
  rw [ht] at h
  exact h

/-- Beyond the lengths that reach the driver: for `2 ^ 32 + 3 = 4294967299` bytes of `'A'`,
a length above `MAX_RW_COUNT`, the sequence open, write, release, open, read of length 10
would return 3 bytes, because the function body of `dev_write` narrows the length to `int`
before the clamp.  The frame facts hold for every length: `dev_open` and `dev_release`
leave `data_size` and `data_buffer` as they were, and `dev_read` and `dev_write` give the
same results and leave the same open flag whatever that flag is. -/
theorem session_round_trip_length_wraps :
    (∀ s : State, (dev_open s).state.data_size = s.data_size ∧
      (dev_open s).state.data_buffer = s.data_buffer ∧
      (dev_release s).state.data_size = s.data_size ∧
      (dev_release s).state.data_buffer = s.data_buffer) ∧
    (∀ (s : State) (v : Int) (room len : Nat),
      dev_read { s with is_open := v } room len =
        { state := { (dev_read s room len).state with is_open := v },
          ret := (dev_read s room len).ret, out := (dev_read s room len).out }) ∧
    (∀ (s : State) (v : Int) (buffer : List Nat) (len : Nat),
      dev_write { s with is_open := v } buffer len =
        { state := { (dev_write s buffer len).state with is_open := v },
          ret := (dev_write s buffer len).ret }) ∧
    (List.replicate (2 ^ 32 + 3) 65).length = 2 ^ 32 + 3 ∧
    (dev_open State.fresh).ret = 0 ∧
    (dev_write (dev_open State.fresh).state (List.replicate (2 ^ 32 + 3) 65)
      (2 ^ 32 + 3)).ret = 3 ∧
    (dev_read (dev_open (dev_release (dev_write (dev_open State.fresh).state
      (List.replicate (2 ^ 32 + 3) 65) (2 ^ 32 + 3)).state).state).state 10 10).ret = 3 ∧
    (dev_read (dev_open (dev_release (dev_write (dev_open State.fresh).state
      (List.replicate (2 ^ 32 + 3) 65) (2 ^ 32 + 3)).state).state).state 10 10).out
      = [65, 65, 65] ∧
    min 10 (min (2 ^ 32 + 3) BUFFER_SIZE) = 10 := by
  have hw : write_size (2 ^ 32 + 3) = 3 := by decide
  have ht : (write_size (2 ^ 32 + 3)).toNat = 3 := by rw [hw]; rfl
  have hsrc : (3 : Nat) ≤ (List.replicate (2 ^ 32 + 3) 65).length := by
    rw [List.length_replicate]
    omega
  have h := dev_write_of_copied (dev_open State.fresh).state (List.replicate (2 ^ 32 + 3) 65)
    (2 ^ 32 + 3) (by rw [hw]; decide) (by rw [ht]; exact hsrc)
  have hr := session_read State.fresh (List.replicate (2 ^ 32 + 3) 65) (2 ^ 32 + 3)
    10 10 (by rw [hw]; decide) (by rw [ht]; exact hsrc) (by rw [ht]; decide)
  have hframe : ∀ s : State, (dev_open s).state.data_size = s.data_size ∧
      (dev_open s).state.data_buffer = s.data_buffer ∧
      (dev_release s).state.data_size = s.data_size ∧
      (dev_release s).state.data_buffer = s.data_buffer := by
    intro s
    refine ⟨?_, ?_, rfl, rfl⟩
    · rw [dev_open_frame]
    · rw [dev_open_frame]
  refine ⟨hframe, dev_read_is_open, dev_write_is_open, List.length_replicate _ _, by decide,
    ?_, ?_, ?_, by decide⟩
  · exact (congrArg CallResult.ret h).trans hw
  · refine hr.1.trans ?_
    simp only [ht]
    rfl
  · refine hr.2.trans ?_
    simp only [ht]
    have h3 : min 10 3 = 3 := by decide
    rw [h3, List.take_replicate]
    rfl

/-! ## The statics across any sequence of calls: typing, toggle, stored length -/

/-- Every length that reaches the driver is a non-negative value of `int`. -/
theorem max_rw_count_lt : MAX_RW_COUNT < 2 ^ 31 := by decide

/-- Where `run` is defined it agrees with `exec`. -/
theorem step_eq_next (s s1 : State) (c : Call) (h : step s c = some s1) : next s c = s1 := by
  cases c with
  | dev_open => exact Option.some.inj h
  | dev_release => exact Option.some.inj h
  | dev_read room len => exact Option.some.inj h
  | dev_write buffer len => exact Option.some.inj h
  | proc_read room Count =>
    simp only [step, Option.map_eq_some'] at h
    obtain ⟨r, hr, rfl⟩ := h
    rw [proc_read_state s room Count r hr]
    rfl

/-- Every call keeps the typing of the statics. -/
theorem next_typed (s : State) (c : Call) (ht : s.typed) : (next s c).typed := by
  obtain ⟨hb, h0, h1⟩ := ht
  cases c with
  | dev_open =>
    show (dev_open s).state.typed
    unfold dev_open
    split_ifs <;> exact ⟨hb, h0, h1⟩
  | dev_release => exact ⟨hb, h0, h1⟩
  | dev_read room len =>
    show (dev_read s room len).state.typed
    unfold dev_read
    simp only
    split_ifs
    · exact ⟨hb, h0, h1⟩
    · exact ⟨hb, by norm_num, by norm_num⟩
  | dev_write buffer len =>
    have hle := write_size_le len
    have hge := write_size_ge len
    have hlen := copy_from_user_length s.data_buffer BUFFER_SIZE buffer
      (to_size_t (write_size len)) hb
    have hlt : write_size len < 2 ^ 31 := by
      simp only [BUFFER_SIZE] at hle
      omega
    show (dev_write s buffer len).state.typed
    unfold dev_write
    simp only
    split_ifs <;> exact ⟨hlen, hge, hlt⟩
  | proc_read room Count => exact ⟨hb, h0, h1⟩

/-- The toggle after a call: flipped by `proc_read`, kept by the device calls. -/
theorem next_is_read (s : State) (c : Call) :
    (next s c).is_read = (s.is_read ^^ decide (proc_read_calls [c] % 2 = 1)) := by
  cases c with
  | dev_open =>
    show (dev_open s).state.is_read = _
    unfold dev_open
    split_ifs <;> simp [proc_read_calls]
  | dev_release => simp [next, dev_release, proc_read_calls]
  | dev_read room len =>
    show (dev_read s room len).state.is_read = _
    unfold dev_read
    simp only
    split_ifs <;> simp [proc_read_calls]
  | dev_write buffer len =>
    show (dev_write s buffer len).state.is_read = _
    unfold dev_write
    simp only
    split_ifs <;> simp [proc_read_calls]
  | proc_read room Count => simp [next, proc_read_statics, proc_read_calls]

/-- After any sequence of calls the statics are well typed and the toggle has been flipped
once per `proc_read` call, whatever the calls left in the buffer. -/
theorem exec_typed_is_read (cs : List Call) (s : State) (ht : s.typed) :
    (exec s cs).typed ∧
    (exec s cs).is_read = (s.is_read ^^ decide (proc_read_calls cs % 2 = 1)) := by
  induction cs generalizing s with
  | nil => exact ⟨ht, by simp [exec, proc_read_calls]⟩
  | cons c cs ih =>
    obtain ⟨ht1, hr1⟩ := ih (next s c) (next_typed s c ht)
    refine ⟨ht1, ?_⟩
    show (exec (next s c) cs).is_read = _
    have hc := proc_read_calls_cons c cs
    have hs := next_is_read s c
    rcases Nat.mod_two_eq_zero_or_one (proc_read_calls [c]) with h1 | h1 <;>
      rcases Nat.mod_two_eq_zero_or_one (proc_read_calls cs) with h2 | h2
    · have h3 : proc_read_calls (c :: cs) % 2 = 0 := by omega
      simp [hr1, hs, h1, h2, h3]
    · have h3 : proc_read_calls (c :: cs) % 2 = 1 := by omega
      simp [hr1, hs, h1, h2, h3]
    · have h3 : proc_read_calls (c :: cs) % 2 = 1 := by omega
      simp [hr1, hs, h1, h2, h3]
    · have h3 : proc_read_calls (c :: cs) % 2 = 0 := by omega
      simp [hr1, hs, h1, h2, h3]

/-- One call keeps the stored length inside `[0, 1024]` when a write request, if it is one,
has a length inside `int`; the outcome of the copies plays no part. -/
theorem next_data_size (s : State) (c : Call) (hc : c.length_in_int)
    (h0 : 0 ≤ s.data_size) (h1 : s.data_size ≤ (BUFFER_SIZE : Int)) :
    0 ≤ (next s c).data_size ∧ (next s c).data_size ≤ (BUFFER_SIZE : Int) := by
  cases c with
  | dev_open =>
    show 0 ≤ (dev_open s).state.data_size ∧ (dev_open s).state.data_size ≤ _
    unfold dev_open
    split_ifs <;> exact ⟨h0, h1⟩
  | dev_release => exact ⟨h0, h1⟩
  | dev_read room len =>
    show 0 ≤ (dev_read s room len).state.data_size ∧ (dev_read s room len).state.data_size ≤ _
    unfold dev_read
    simp only
    split_ifs
    · exact ⟨h0, h1⟩
    · exact ⟨le_refl _, Int.natCast_nonneg _⟩
  | dev_write buffer len =>
    have hw := write_size_of_lt (show len < 2 ^ 31 from hc)
    have hle := write_size_le len
    show 0 ≤ (dev_write s buffer len).state.data_size ∧
      (dev_write s buffer len).state.data_size ≤ _
    unfold dev_write
    simp only
    split_ifs <;> exact ⟨by rw [hw]; exact Int.natCast_nonneg _, hle⟩
  | proc_read room Count => exact ⟨h0, h1⟩

/-- A sequence of calls keeps the stored length inside `[0, 1024]` when every write request
has a length inside `int`. -/
theorem exec_data_size (cs : List Call) (s : State) (hcs : ∀ c ∈ cs, c.length_in_int)
    (h0 : 0 ≤ s.data_size) (h1 : s.data_size ≤ (BUFFER_SIZE : Int)) :
    0 ≤ (exec s cs).data_size ∧ (exec s cs).data_size ≤ (BUFFER_SIZE : Int) := by
  induction cs generalizing s with
  | nil => exact ⟨h0, h1⟩
  | cons c cs ih =>
    obtain ⟨h2, h3⟩ := next_data_size s c (hcs c (List.mem_cons_self _ _)) h0 h1
    exact ih (next s c) (fun c1 hc1 => hcs c1 (List.mem_cons_of_mem _ hc1)) h2 h3

/-- `chrdev_init` leaves the stored length at 0, whatever the kernel answers. -/
theorem chrdev_init_data_size (s : State) (k : Setup) :
    (chrdev_init s k).state.data_size = 0 := by
  unfold chrdev_init
  simp only
  split_ifs <;> rfl

/-! ## Alternation of the diagnostic reads over every history -/

/-- C8 (amended): let `cs` be any sequence of device and diagnostic calls made on a freshly
loaded module, with any arguments and any outcome, so that the next `proc_read` is call
number `k = proc_read_calls cs + 1`.  The toggle is true after `cs` exactly when `cs` holds
an odd number of `proc_read` calls, and after the next call exactly when `k` is odd.  When
`k` is even the call returns 0, delivers nothing and clears the toggle, whatever the buffer
and the arguments are.  When `k` is odd and the buffer holds a zero byte the call sets the
toggle and returns the number of bytes it delivers, the first `min (min Count L) room`
bytes of the report, which is positive exactly when the requested length and the writable
memory of the caller are not empty. -/
theorem proc_read_alternation (cs : List Call) (room Count : Nat) :
    (exec State.fresh cs).is_read = decide (proc_read_calls cs % 2 = 1) ∧
    (next (exec State.fresh cs) (Call.proc_read room Count)).is_read =
      decide (proc_read_calls cs % 2 = 0) ∧
    (proc_read_calls cs % 2 = 1 →
      proc_read (exec State.fresh cs) room Count =
        some { state := { exec State.fresh cs with is_read := false }, ret := 0, out := [] }) ∧
    (proc_read_calls cs % 2 = 0 → 0 ∈ (exec State.fresh cs).data_buffer →
      ∃ r, proc_read (exec State.fresh cs) room Count = some r ∧
        r.state = { exec State.fresh cs with is_read := true } ∧
        r.ret = (r.out.length : Int) ∧
        r.out = (report_text (exec State.fresh cs).data_size
            (exec State.fresh cs).data_buffer).take
          (min (min Count (report_text (exec State.fresh cs).data_size
            (exec State.fresh cs).data_buffer).length) room) ∧
        (0 < r.ret ↔ 0 < Count ∧ 0 < room)) := by
  obtain ⟨⟨hb, h0, h1⟩, hr⟩ := exec_typed_is_read cs State.fresh fresh_typed
  have hr1 : (exec State.fresh cs).is_read = decide (proc_read_calls cs % 2 = 1) := by
    rw [hr]
    simp [State.fresh]
  refine ⟨hr1, ?_, fun hodd => ?_, fun heven hz => ?_⟩
  · show (!(exec State.fresh cs).is_read) = _
    rw [hr1]
    rcases Nat.mod_two_eq_zero_or_one (proc_read_calls cs) with h | h <;> simp [h]
  · exact proc_read_off _ room Count (by rw [hr1]; simp [hodd])
  · have hoff : (exec State.fresh cs).is_read = false := by
      rw [hr1]
      simp [heven]
    have hL := report_text_length (exec State.fresh cs).data_size
      (exec State.fresh cs).data_buffer
    have hlen : (List.take (min (min Count (report_text (exec State.fresh cs).data_size
        (exec State.fresh cs).data_buffer).length) room)
        (report_text (exec State.fresh cs).data_size
          (exec State.fresh cs).data_buffer)).length =
        min (min Count (report_text (exec State.fresh cs).data_size
          (exec State.fresh cs).data_buffer).length) room := by
      rw [List.length_take]
      omega
    refine ⟨_, proc_read_on _ room Count hoff hz (le_of_eq hb) h0 h1, rfl, ?_, rfl, ?_⟩
    · show ((min (min Count (report_text (exec State.fresh cs).data_size
        (exec State.fresh cs).data_buffer).length) room : Nat) : Int) = _
      rw [hlen]
    · show (0 : Int) < ((min (min Count (report_text (exec State.fresh cs).data_size
        (exec State.fresh cs).data_buffer).length) room : Nat) : Int) ↔ _
      omega

set_option maxRecDepth 100000 in
/-- Instance of `proc_read_alternation`: after a write of `"hello"` the first diagnostic read
returns a positive count; and after a write that fills the buffer with `'A'` and a first
diagnostic read, the second diagnostic read returns 0. -/
theorem proc_read_alternation_witness :
    (proc_read_calls [Call.dev_write (bytes "hello") 5] % 2 = 0 ∧
      0 ∈ (exec State.fresh [Call.dev_write (bytes "hello") 5]).data_buffer ∧
      proc_read_calls [Call.dev_write (List.replicate 2000 65) 2000, Call.proc_read 100 100]
        % 2 = 1) ∧
    (∃ r, proc_read (exec State.fresh [Call.dev_write (bytes "hello") 5]) 100 100 = some r ∧
        r.state = { exec State.fresh [Call.dev_write (bytes "hello") 5] with is_read := true } ∧
        r.ret = (r.out.length : Int) ∧
        r.out = (report_text (exec State.fresh [Call.dev_write (bytes "hello") 5]).data_size
            (exec State.fresh [Call.dev_write (bytes "hello") 5]).data_buffer).take
          (min (min 100 (report_text
            (exec State.fresh [Call.dev_write (bytes "hello") 5]).data_size
            (exec State.fresh [Call.dev_write (bytes "hello") 5]).data_buffer).length) 100) ∧
        (0 < r.ret ↔ 0 < 100 ∧ 0 < 100)) ∧
    proc_read (exec State.fresh
        [Call.dev_write (List.replicate 2000 65) 2000, Call.proc_read 100 100]) 7 9 =
      some { state := { exec State.fresh
          [Call.dev_write (List.replicate 2000 65) 2000, Call.proc_read 100 100]
          with is_read := false }, ret := 0, out := [] } :=
  ⟨by decide,
    (proc_read_alternation [Call.dev_write (bytes "hello") 5] 100 100).2.2.2
      (by decide) (by decide),
    (proc_read_alternation
      [Call.dev_write (List.replicate 2000 65) 2000, Call.proc_read 100 100] 7 9).2.2.1
      (by decide)⟩

/-! ## The report of a buffer without a zero byte -/

set_option maxRecDepth 100000 in
/-- C9 (code defect, evaluated at the failing input): the end-to-end example of the
specification, a write of 2000 bytes of `'A'` to a freshly loaded module, succeeds with
1024 and leaves `data_size = 1024` and 1024 bytes of `'A'` in `data_buffer`, none of them
zero.  In that state the toggle is false, so the next `proc_read` formats a report; its
conversion `%s` finds no terminator inside `data_buffer` and reads past the end of the
array, so the text, its length `L` and the returned count are not determined by the
statics. -/
theorem proc_read_unterminated_buffer :
    (dev_write State.fresh (List.replicate 2000 65) 2000).ret = 1024 ∧
    (dev_write State.fresh (List.replicate 2000 65) 2000).state = full_state ∧
    full_state.is_read = false ∧
    full_state.data_buffer.length = BUFFER_SIZE ∧
    0 ∉ full_state.data_buffer ∧
    fmt_s full_state.data_buffer = none ∧
    sprintf_report full_state.data_size full_state.data_buffer = none ∧
    proc_read full_state 2000 2000 = none := by
  refine ⟨congrArg CallResult.ret write_fills_buffer,
    congrArg CallResult.state write_fills_buffer, rfl, by decide, by decide, by decide,
    by decide, by decide⟩

/-! ## The stored length over every history -/

/-- C12 (amended): `chrdev_init` sets `data_size = 0`, and in every state reached from
there by any finite sequence of `dev_open`, `dev_release`, `dev_read`, `dev_write` and
`proc_read` calls whose write lengths are non-negative values of `int` (every length that
reaches the driver is at most `MAX_RW_COUNT`), with any read lengths and any outcome of
each copy, the stored length satisfies `0 ≤ data_size ≤ 1024`. -/
theorem data_size_invariant (s0 : State) (k : Setup) (cs : List Call)
    (hcs : ∀ c ∈ cs, c.length_in_int) :
    (chrdev_init s0 k).state.data_size = 0 ∧
    0 ≤ (exec (chrdev_init s0 k).state cs).data_size ∧
    (exec (chrdev_init s0 k).state cs).data_size ≤ (BUFFER_SIZE : Int) := by
  have hinit := chrdev_init_data_size s0 k
  obtain ⟨h0, h1⟩ := exec_data_size cs (chrdev_init s0 k).state hcs
    (by rw [hinit]) (by rw [hinit]; exact Int.natCast_nonneg _)
  exact ⟨hinit, h0, h1⟩

/-- Instance of `data_size_invariant`: a load, a write of `"hello"`, a read that faults, a
write of 2000 bytes from a pointer with no readable byte, a diagnostic read. -/
theorem data_size_invariant_witness :
    (∀ c ∈ [Call.dev_write (bytes "hello") 5, Call.dev_read 2 5,
        Call.dev_write [] 2000, Call.proc_read 10 10], c.length_in_int) ∧
    (chrdev_init State.fresh setup_all_succeed).state.data_size = 0 ∧
    0 ≤ (exec (chrdev_init State.fresh setup_all_succeed).state
      [Call.dev_write (bytes "hello") 5, Call.dev_read 2 5,
        Call.dev_write [] 2000, Call.proc_read 10 10]).data_size ∧
    (exec (chrdev_init State.fresh setup_all_succeed).state
      [Call.dev_write (bytes "hello") 5, Call.dev_read 2 5,
        Call.dev_write [] 2000, Call.proc_read 10 10]).data_size ≤ (BUFFER_SIZE : Int) :=
  have hcs : ∀ c ∈ [Call.dev_write (bytes "hello") 5, Call.dev_read 2 5,
      Call.dev_write [] 2000, Call.proc_read 10 10], c.length_in_int := by
    intro c hc
    simp only [List.mem_cons, List.mem_singleton, List.not_mem_nil, or_false] at hc
    rcases hc with rfl | rfl | rfl | rfl
    · show 5 < 2 ^ 31
      decide
    · trivial
    · show 2000 < 2 ^ 31
      decide
    · trivial
  ⟨hcs, data_size_invariant State.fresh setup_all_succeed _ hcs⟩

/-! ## Contracts of the write path for the lengths that reach the driver -/

/-- The copy of `copy_from_user` reports no uncopied byte exactly when the request fits the
destination object and the caller's readable memory. -/
theorem copy_from_user_snd_eq_zero (dst : List Nat) (size : Nat) (src : List Nat) (n : Nat) :
    (copy_from_user dst size src n).2 = 0 ↔ n ≤ size ∧ n ≤ src.length := by
  unfold copy_from_user
  split_ifs with h
  · simp only
    omega
  · simp only
    omega

/-- For a length inside `int`, `dev_write` asks the copy for `min len 1024` bytes. -/
theorem write_request_of_lt {len : Nat} (hlen : len < 2 ^ 31) :
    to_size_t (write_size len) = min len BUFFER_SIZE := by
  rw [write_size_of_lt hlen]
  exact to_size_t_natCast (lt_of_le_of_lt (Nat.min_le_left _ _) (by omega))

/-- C1: for every device state and every write request `(data, len)` whose copy from the
caller's memory succeeds (`len` being a non-negative value of `int`, as every length that
reaches the driver is), `dev_write` returns `min len 1024`, sets `data_size` to that
count, and makes the first `min len 1024` bytes of `data_buffer` equal to the first
`min len 1024` bytes of the data, whatever the previous length and contents were; the
bytes behind them and the two flags stay as they were. -/
theorem dev_write_contract (s : State) (buffer : List Nat) (len : Nat)
    (hlen : len < 2 ^ 31)
    (hcopy : (copy_from_user s.data_buffer BUFFER_SIZE buffer
      (to_size_t (write_size len))).2 = 0) :
    (dev_write s buffer len).ret = ((min len BUFFER_SIZE : Nat) : Int) ∧
    (dev_write s buffer len).state.data_size = ((min len BUFFER_SIZE : Nat) : Int) ∧
    (dev_write s buffer len).state.data_buffer.take (min len BUFFER_SIZE) =
      buffer.take (min len BUFFER_SIZE) ∧
    (buffer.take (min len BUFFER_SIZE)).length = min len BUFFER_SIZE ∧
    (dev_write s buffer len).state.data_buffer.drop (min len BUFFER_SIZE) =
      s.data_buffer.drop (min len BUFFER_SIZE) ∧
    (dev_write s buffer len).state.is_open = s.is_open ∧
    (dev_write s buffer len).state.is_read = s.is_read := by
  rw [write_request_of_lt hlen, copy_from_user_snd_eq_zero] at hcopy
  have hsrc := hcopy.2
  have htl : (buffer.take (min len BUFFER_SIZE)).length = min len BUFFER_SIZE := by
    rw [List.length_take]
    exact Nat.min_eq_left hsrc
  have hdrop := dev_write_data_buffer_drop s buffer len
  rw [dev_write_in_range s buffer len hlen hsrc] at hdrop ⊢
  refine ⟨rfl, rfl, ?_, htl, hdrop, rfl, rfl⟩
  show (buffer.take (min len BUFFER_SIZE) ++ s.data_buffer.drop (min len BUFFER_SIZE)).take
    (min len BUFFER_SIZE) = _
  rw [List.take_append_of_le_length (le_of_eq htl.symm), List.take_take, Nat.min_self]

set_option maxRecDepth 100000 in
/-- Instance of `dev_write_contract`: `"hello"` written over a buffer full of `'A'` with the
length 1024 returns 5, stores the length 5 and starts the buffer with `"hello"`. -/
theorem dev_write_contract_witness :
    ((5 : Nat) < 2 ^ 31 ∧
      (copy_from_user full_state.data_buffer BUFFER_SIZE (bytes "hello")
        (to_size_t (write_size 5))).2 = 0) ∧
    (dev_write full_state (bytes "hello") 5).ret = ((min 5 BUFFER_SIZE : Nat) : Int) ∧
    (dev_write full_state (bytes "hello") 5).state.data_size
      = ((min 5 BUFFER_SIZE : Nat) : Int) ∧
    (dev_write full_state (bytes "hello") 5).state.data_buffer.take (min 5 BUFFER_SIZE) =
      (bytes "hello").take (min 5 BUFFER_SIZE) :=
  ⟨by decide,
    (dev_write_contract full_state (bytes "hello") 5 (by decide) (by decide)).1,
    (dev_write_contract full_state (bytes "hello") 5 (by decide) (by decide)).2.1,
    (dev_write_contract full_state (bytes "hello") 5 (by decide) (by decide)).2.2.1⟩

/-- C4 (amended): for every write request whose requested length is greater than the
capacity 1024 and is a non-negative value of `int` (`1024 < len < 2 ^ 31`, which covers
every length that reaches the driver) and whose copy succeeds, `dev_write` returns 1024,
the stored length `data_size` equals 1024 and `data_buffer` holds exactly the first 1024
bytes of the input. -/
theorem dev_write_over_capacity (s : State) (buffer : List Nat) (len : Nat)
    (hbuf : s.data_buffer.length = BUFFER_SIZE) (hover : BUFFER_SIZE < len)
    (hlen : len < 2 ^ 31)
    (hcopy : (copy_from_user s.data_buffer BUFFER_SIZE buffer
      (to_size_t (write_size len))).2 = 0) :
    (dev_write s buffer len).ret = (BUFFER_SIZE : Int) ∧
    (dev_write s buffer len).state.data_size = (BUFFER_SIZE : Int) ∧
    (dev_write s buffer len).state.data_buffer = buffer.take BUFFER_SIZE ∧
    (dev_write s buffer len).state.data_buffer.length = BUFFER_SIZE := by
  have hmin : min len BUFFER_SIZE = BUFFER_SIZE := Nat.min_eq_right (le_of_lt hover)
  rw [write_request_of_lt hlen, copy_from_user_snd_eq_zero, hmin] at hcopy
  have h := dev_write_over_capacity_in_range s buffer len hbuf hover hlen hcopy.2
  have hret : (dev_write s buffer len).ret = (BUFFER_SIZE : Int) := by
    rw [dev_write_in_range s buffer len hlen (by rw [hmin]; exact hcopy.2), hmin]
  refine ⟨hret, h.1, h.2, ?_⟩
  rw [h.2, List.length_take]
  exact Nat.min_eq_left hcopy.2

/-- Instance of `dev_write_over_capacity`: the end-to-end example of the specification, a
write of 2000 bytes of `'A'`, leaves the length 1024 and 1024 bytes of `'A'`. -/
theorem dev_write_over_capacity_witness :
    (State.fresh.data_buffer.length = BUFFER_SIZE ∧ BUFFER_SIZE < 2000 ∧
      (2000 : Nat) < 2 ^ 31 ∧
      (copy_from_user State.fresh.data_buffer BUFFER_SIZE (List.replicate 2000 65)
        (to_size_t (write_size 2000))).2 = 0) ∧
    ((dev_write State.fresh (List.replicate 2000 65) 2000).ret = (BUFFER_SIZE : Int) ∧
      (dev_write State.fresh (List.replicate 2000 65) 2000).state.data_size
        = (BUFFER_SIZE : Int) ∧
      (dev_write State.fresh (List.replicate 2000 65) 2000).state.data_buffer
        = (List.replicate 2000 65).take BUFFER_SIZE ∧
      (dev_write State.fresh (List.replicate 2000 65) 2000).state.data_buffer.length
        = BUFFER_SIZE) ∧
    (List.replicate 2000 65).take BUFFER_SIZE = List.replicate BUFFER_SIZE 65 :=
  have hcopy : (copy_from_user State.fresh.data_buffer BUFFER_SIZE (List.replicate 2000 65)
      (to_size_t (write_size 2000))).2 = 0 := by
    rw [write_request_of_lt (by decide), copy_from_user_snd_eq_zero, List.length_replicate]
    decide
  ⟨⟨List.length_replicate _ _, by decide, by decide, hcopy⟩,
    dev_write_over_capacity State.fresh (List.replicate 2000 65) 2000
      (List.length_replicate _ _) (by decide) (by decide) hcopy,
    by rw [List.take_replicate]; rfl⟩

/-! ## Round trip for the lengths that reach the driver -/

/-- After a write of `d` with a length inside `int`, the copy of a read is complete exactly
when the caller's memory takes the bytes the read asks for. -/
theorem read_after_write_copy (s : State) (d : List Nat) (room r : Nat)
    (hlen : d.length < 2 ^ 31)
    (hcopy : (copy_to_user room (dev_write s d d.length).state.data_buffer BUFFER_SIZE
      (read_count (dev_write s d d.length).state r)).2 = 0) :
    min r (min d.length BUFFER_SIZE) ≤ room := by
  have hw := dev_write_in_range s d d.length hlen (Nat.min_le_left _ _)
  have hds : (dev_write s d d.length).state.data_size =
      ((min d.length BUFFER_SIZE : Nat) : Int) := by rw [hw]
  have hn : min d.length BUFFER_SIZE ≤ BUFFER_SIZE := Nat.min_le_right _ _
  rw [read_count_of_nonneg _ r (by rw [hds]; exact Int.natCast_nonneg _)
    (by rw [hds]; simp only [BUFFER_SIZE] at hn ⊢; omega), hds, Int.toNat_natCast,
    copy_to_user_snd_eq_zero] at hcopy
  exact hcopy.2

/-- C3: for every byte sequence `d` (shorter than `2 ^ 31` bytes, as every length that
reaches the driver is), with `n = min |d| 1024`, and every requested read length `r`:
`dev_write (d, |d|)` has a complete copy and returns `n`; a `dev_read r` that follows
immediately and whose copy is complete returns `min r n` bytes, the first `min r n` bytes
of `d`, exactly `r` bytes when `r ≤ n`; and a second `dev_read` with any requested length
returns 0 bytes. -/
theorem round_trip (s : State) (d : List Nat) (room r room2 r2 : Nat)
    (hlen : d.length < 2 ^ 31)
    (hcopy : (copy_to_user room (dev_write s d d.length).state.data_buffer BUFFER_SIZE
      (read_count (dev_write s d d.length).state r)).2 = 0) :
    (copy_from_user s.data_buffer BUFFER_SIZE d (to_size_t (write_size d.length))).2 = 0 ∧
    (dev_write s d d.length).ret = ((min d.length BUFFER_SIZE : Nat) : Int) ∧
    (dev_read (dev_write s d d.length).state room r).ret
      = ((min r (min d.length BUFFER_SIZE) : Nat) : Int) ∧
    (dev_read (dev_write s d d.length).state room r).out
      = d.take (min r (min d.length BUFFER_SIZE)) ∧
    (dev_read (dev_write s d d.length).state room r).out.length
      = min r (min d.length BUFFER_SIZE) ∧
    (r ≤ min d.length BUFFER_SIZE →
      (dev_read (dev_write s d d.length).state room r).out.length = r) ∧
    (dev_read (dev_read (dev_write s d d.length).state room r).state room2 r2).ret = 0 ∧
    (dev_read (dev_read (dev_write s d d.length).state room r).state room2 r2).out = [] := by
  have hroom := read_after_write_copy s d room r hlen hcopy
  obtain ⟨h1, h2, h3, h4⟩ := round_trip_in_range s d room r room2 r2 hlen hroom
  have hl : (dev_read (dev_write s d d.length).state room r).out.length
      = min r (min d.length BUFFER_SIZE) := by
    rw [h2, List.length_take]
    omega
  refine ⟨?_, ?_, h1, h2, hl, fun hr => ?_, h3, h4⟩
  · rw [write_request_of_lt hlen, copy_from_user_snd_eq_zero]
    exact ⟨Nat.min_le_right _ _, Nat.min_le_left _ _⟩
  · rw [dev_write_in_range s d d.length hlen (Nat.min_le_left _ _)]
  · rw [hl]
    exact Nat.min_eq_left hr

set_option maxRecDepth 100000 in
/-- Instance of `round_trip`, the example of the specification: after a write of the 5
bytes `"hello"`, a read with length 10 returns the 5 bytes `"hello"` and the next read
returns 0. -/
theorem round_trip_witness :
    ((bytes "hello").length < 2 ^ 31 ∧
      (copy_to_user 10
        (dev_write State.fresh (bytes "hello") (bytes "hello").length).state.data_buffer
        BUFFER_SIZE
        (read_count (dev_write State.fresh (bytes "hello") (bytes "hello").length).state
          10)).2 = 0) ∧
    ((dev_read (dev_write State.fresh (bytes "hello") (bytes "hello").length).state
        10 10).ret = ((min 10 (min (bytes "hello").length BUFFER_SIZE) : Nat) : Int) ∧
      (dev_read (dev_write State.fresh (bytes "hello") (bytes "hello").length).state
        10 10).out = (bytes "hello").take (min 10 (min (bytes "hello").length BUFFER_SIZE)) ∧
      (dev_read (dev_read (dev_write State.fresh (bytes "hello")
        (bytes "hello").length).state 10 10).state 10 10).ret = 0) ∧
    (min 10 (min (bytes "hello").length BUFFER_SIZE) = 5 ∧
      (bytes "hello").take 5 = bytes "hello") :=
  ⟨by decide,
    ⟨(round_trip State.fresh (bytes "hello") 10 10 10 10 (by decide) (by decide)).2.2.1,
      (round_trip State.fresh (bytes "hello") 10 10 10 10 (by decide) (by decide)).2.2.2.1,
      (round_trip State.fresh (bytes "hello") 10 10 10 10 (by decide)
        (by decide)).2.2.2.2.2.2.1⟩,
    by decide⟩

/-! ## The open session and the buffer, for the lengths that reach the driver -/

/-- The statics before the last read of the sequence open, write, release, open, read:
those the write left, with the open flag set. -/
theorem session_state (s : State) (d : List Nat) (len : Nat) :
    (dev_open (dev_release (dev_write (dev_open s).state d len).state).state).state =
      { (dev_write (dev_open s).state d len).state with is_open := 1 } := by
  simp [dev_open, dev_release]

/-- C15: `dev_open` and `dev_release` leave `data_size` and `data_buffer` unchanged, and
`dev_read`, `dev_write` and `proc_read` neither consult nor change `is_open`: run with
another value of the flag they give the same results and leave that value in place.
Consequently, for every byte sequence `d` (shorter than `2 ^ 31` bytes, as every length
that reaches the driver is), the sequence open, write `d`, release, open, read `r` with
complete copies returns the first `min r (min |d| 1024)` bytes of `d`. -/
theorem session_independence :
    (∀ s : State, (dev_open s).state.data_size = s.data_size ∧
      (dev_open s).state.data_buffer = s.data_buffer ∧
      (dev_release s).state.data_size = s.data_size ∧
      (dev_release s).state.data_buffer = s.data_buffer) ∧
    (∀ (s : State) (v : Int) (room len : Nat),
      dev_read { s with is_open := v } room len =
        { state := { (dev_read s room len).state with is_open := v },
          ret := (dev_read s room len).ret, out := (dev_read s room len).out }) ∧
    (∀ (s : State) (v : Int) (buffer : List Nat) (len : Nat),
      dev_write { s with is_open := v } buffer len =
        { state := { (dev_write s buffer len).state with is_open := v },
          ret := (dev_write s buffer len).ret }) ∧
    (∀ (s : State) (v : Int) (room Count : Nat),
      proc_read { s with is_open := v } room Count =
        (proc_read s room Count).map (fun r =>
          { state := { r.state with is_open := v }, ret := r.ret, out := r.out })) ∧
    (∀ (s : State) (d : List Nat) (room r : Nat), d.length < 2 ^ 31 →
      (copy_to_user room
        (dev_open (dev_release
          (dev_write (dev_open s).state d d.length).state).state).state.data_buffer
        BUFFER_SIZE
        (read_count (dev_open (dev_release
          (dev_write (dev_open s).state d d.length).state).state).state r)).2 = 0 →
      (copy_from_user (dev_open s).state.data_buffer BUFFER_SIZE d
        (to_size_t (write_size d.length))).2 = 0 ∧
      (dev_read (dev_open (dev_release
          (dev_write (dev_open s).state d d.length).state).state).state room r).ret
        = ((min r (min d.length BUFFER_SIZE) : Nat) : Int) ∧
      (dev_read (dev_open (dev_release
          (dev_write (dev_open s).state d d.length).state).state).state room r).out
        = d.take (min r (min d.length BUFFER_SIZE)) ∧
      (dev_read (dev_open (dev_release
          (dev_write (dev_open s).state d d.length).state).state).state room r).out.length
        = min r (min d.length BUFFER_SIZE)) := by
  have hframe : ∀ s : State, (dev_open s).state.data_size = s.data_size ∧
      (dev_open s).state.data_buffer = s.data_buffer ∧
      (dev_release s).state.data_size = s.data_size ∧
      (dev_release s).state.data_buffer = s.data_buffer := by
    intro s
    refine ⟨?_, ?_, rfl, rfl⟩
    · rw [dev_open_frame]
    · rw [dev_open_frame]
  refine ⟨hframe, dev_read_is_open, dev_write_is_open, proc_read_is_open, ?_⟩
  intro s d room r hlen hcopy
  rw [session_state] at hcopy
  have hroom := read_after_write_copy (dev_open s).state d room r hlen hcopy
  obtain ⟨h1, h2⟩ := session_round_trip_in_range s d room r hlen hroom
  refine ⟨?_, h1, h2, ?_⟩
  · rw [write_request_of_lt hlen, copy_from_user_snd_eq_zero]
    exact ⟨Nat.min_le_right _ _, Nat.min_le_left _ _⟩
  · rw [h2, List.length_take]
    omega

set_option maxRecDepth 100000 in
/-- Instance of `session_independence`: `"hello"` written in one session is read back in the
next one. -/
theorem session_independence_witness :
    ((bytes "hello").length < 2 ^ 31 ∧
      (copy_to_user 10
        (dev_open (dev_release (dev_write (dev_open State.fresh).state (bytes "hello")
          (bytes "hello").length).state).state).state.data_buffer
        BUFFER_SIZE
        (read_count (dev_open (dev_release (dev_write (dev_open State.fresh).state
          (bytes "hello") (bytes "hello").length).state).state).state 10)).2 = 0) ∧
    (dev_read (dev_open (dev_release (dev_write (dev_open State.fresh).state (bytes "hello")
        (bytes "hello").length).state).state).state 10 10).out
      = (bytes "hello").take (min 10 (min (bytes "hello").length BUFFER_SIZE)) ∧
    (bytes "hello").take (min 10 (min (bytes "hello").length BUFFER_SIZE)) = bytes "hello" :=
  ⟨by decide,
    (session_independence.2.2.2.2 State.fresh (bytes "hello") 10 10 (by decide)
      (by decide)).2.2.1,
    by decide⟩

end Chrdev
